import Mathlib

/-!
Verification of the upstream-merge automation in `src/tasks/merging.py`.

The Python task shells out to `git` and `gh`; the embedding models each
external interaction by an `Env` oracle field (the observable answer of the
external tool) and records every performed side effect in a trace of `Event`s.
Pure pieces of the source (configuration dataclasses, strict configuration
loading, command strings, the pull-request body template, the filtering of
pull requests) are translated directly as Lean functions.
-/

namespace Merging

/-- Python `str.strip()` on the character list of a string (the source uses
`.strip()` only to test whether command output is empty or blank). -/
def pyStrip (s : String) : String :=
  String.mk (((s.data.dropWhile Char.isWhitespace).reverse.dropWhile Char.isWhitespace).reverse)

/-- The status of the attempted merge (`MergeStatus` enum in the source; the
spec calls this closed three-variant set `MergeOutcome`, renaming
`UP_TO_DATE`/`MERGED`/`PULL_REQUEST` to `UpToDate`/`Merged`/`PullRequestOpened`).
The `.name` of this status is placed into the file `.merge-upstream-status`. -/
inductive MergeStatus where
  | UP_TO_DATE
  | MERGED
  | PULL_REQUEST
deriving DecidableEq, Repr

/-- Python `Enum.name`: the literal member name written to the status file. -/
def MergeStatus.name : MergeStatus → String
  | .UP_TO_DATE => "UP_TO_DATE"
  | .MERGED => "MERGED"
  | .PULL_REQUEST => "PULL_REQUEST"

/-- Configuration for Conan Center Index (dataclass `ConanCenterIndexConfig`). -/
structure ConanCenterIndexConfig where
  url : String := "git@github.com:conan-io/conan-center-index.git"
  branch : String := "master"
deriving DecidableEq, Repr

/-- Configuration for the upstream repo (dataclass `UpstreamConfig`). -/
structure UpstreamConfig where
  host : String := "octocat.dlogics.com"
  organization : String := "datalogics"
  branch : String := "develop"
  remote_name : String := "merge-upstream-remote"
deriving DecidableEq, Repr

/-- Property `UpstreamConfig.url` of the source. -/
def UpstreamConfig.url (c : UpstreamConfig) : String :=
  "git@" ++ c.host ++ ":" ++ c.organization ++ "/conan-center-index.git"

/-- Configuration for the pull request (dataclass `PullRequestConfig`).
The source default for `fork` is `getpass.getuser()`, an environment value;
it is threaded through as the `user` argument below. -/
structure PullRequestConfig where
  host : String := "octocat.dlogics.com"
  fork : String
  merge_branch_name : String := "merge-from-conan-io"
  reviewers : List String := []
  assignee : Option String := none
  labels : List String := ["from-conan-io"]
deriving DecidableEq, Repr

/-- Property `PullRequestConfig.url` of the source. -/
def PullRequestConfig.url (c : PullRequestConfig) : String :=
  "git@" ++ c.host ++ ":" ++ c.fork ++ "/conan-center-index.git"

/-- Configuration for the merge-upstream task (dataclass `MergeUpstreamConfig`). -/
structure MergeUpstreamConfig where
  cci : ConanCenterIndexConfig := {}
  upstream : UpstreamConfig := {}
  pull_request : PullRequestConfig
deriving DecidableEq, Repr

/-- The all-defaults configuration, given the current user name (the default
of every field of the dataclasses, with `fork` defaulted to `getpass.getuser()`). -/
def defaultMergeUpstreamConfig (user : String) : MergeUpstreamConfig :=
  { pull_request := { fork := user } }

/-- Shapes of YAML values that can appear under the `merge_upstream` key of
`dlproject.yaml` for this schema (strings, lists of strings, nested
mappings, and null). -/
inductive Yaml where
  | str (s : String)
  | strList (l : List String)
  | dict (entries : List (String × Yaml))
  | nullVal

/-- Read an optional string field, as `dacite` does for a `str` dataclass
field: absent keys keep the default, present keys must hold a string. -/
def getStr (d : List (String × Yaml)) (key dflt : String) : Except String String :=
  match d.lookup key with
  | none => .ok dflt
  | some (.str s) => .ok s
  | some _ => .error ("wrong value type for " ++ key)

/-- Read an optional `list[str]` field. -/
def getStrList (d : List (String × Yaml)) (key : String) (dflt : List String) :
    Except String (List String) :=
  match d.lookup key with
  | none => .ok dflt
  | some (.strList l) => .ok l
  | some _ => .error ("wrong value type for " ++ key)

/-- Read an `Optional[str]` field (null and string both accepted). -/
def getOptStr (d : List (String × Yaml)) (key : String) (dflt : Option String) :
    Except String (Option String) :=
  match d.lookup key with
  | none => .ok dflt
  | some (.str s) => .ok (some s)
  | some .nullVal => .ok none
  | some _ => .error ("wrong value type for " ++ key)

def cciKeys : List String := ["url", "branch"]

def upstreamKeys : List String := ["host", "organization", "branch", "remote_name"]

def pullRequestKeys : List String :=
  ["host", "fork", "merge_branch_name", "reviewers", "assignee", "labels"]

def topKeys : List String := ["cci", "upstream", "pull_request"]

/-- Strict `dacite.from_dict` for `ConanCenterIndexConfig`: build each field
from the document (defaults for absent keys), then reject documents with
keys that are not fields (`dacite.Config(strict=True)`). -/
def fromDictCci (d : List (String × Yaml)) : Except String ConanCenterIndexConfig :=
  match getStr d "url" ({} : ConanCenterIndexConfig).url with
  | .error e => .error e
  | .ok url =>
    match getStr d "branch" ({} : ConanCenterIndexConfig).branch with
    | .error e => .error e
    | .ok branch =>
      if d.all (fun p => cciKeys.contains p.1) then .ok { url := url, branch := branch }
      else .error "unexpected keys in cci"

/-- Strict `dacite.from_dict` for `UpstreamConfig`. -/
def fromDictUpstream (d : List (String × Yaml)) : Except String UpstreamConfig :=
  match getStr d "host" ({} : UpstreamConfig).host with
  | .error e => .error e
  | .ok host =>
    match getStr d "organization" ({} : UpstreamConfig).organization with
    | .error e => .error e
    | .ok organization =>
      match getStr d "branch" ({} : UpstreamConfig).branch with
      | .error e => .error e
      | .ok branch =>
        match getStr d "remote_name" ({} : UpstreamConfig).remote_name with
        | .error e => .error e
        | .ok remote_name =>
          if d.all (fun p => upstreamKeys.contains p.1) then
            .ok { host := host, organization := organization, branch := branch,
                  remote_name := remote_name }
          else .error "unexpected keys in upstream"

/-- Strict `dacite.from_dict` for `PullRequestConfig` (the `fork` default is
the current user). -/
def fromDictPullRequest (user : String) (d : List (String × Yaml)) :
    Except String PullRequestConfig :=
  match getStr d "host" ({ fork := user } : PullRequestConfig).host with
  | .error e => .error e
  | .ok host =>
    match getStr d "fork" user with
    | .error e => .error e
    | .ok fork =>
      match getStr d "merge_branch_name" ({ fork := user } : PullRequestConfig).merge_branch_name with
      | .error e => .error e
      | .ok merge_branch_name =>
        match getStrList d "reviewers" [] with
        | .error e => .error e
        | .ok reviewers =>
          match getOptStr d "assignee" none with
          | .error e => .error e
          | .ok assignee =>
            match getStrList d "labels" ["from-conan-io"] with
            | .error e => .error e
            | .ok labels =>
              if d.all (fun p => pullRequestKeys.contains p.1) then
                .ok { host := host, fork := fork, merge_branch_name := merge_branch_name,
                      reviewers := reviewers, assignee := assignee, labels := labels }
              else .error "unexpected keys in pull_request"

/-- Read one nested dataclass section: absent key keeps the default value,
a mapping recurses, any other shape is a type error. -/
def parseSection {α : Type} (d : List (String × Yaml)) (key : String) (dflt : α)
    (parse : List (String × Yaml) → Except String α) : Except String α :=
  match d.lookup key with
  | none => .ok dflt
  | some (.dict entries) => parse entries
  | some _ => .error ("wrong value type for " ++ key)

/-- `MergeUpstreamConfig.create_from_dlproject`: defaults updated from the
`merge_upstream` mapping of `dlproject.yaml` via strict `dacite.from_dict`;
any `DaciteError` becomes a `ConfigurationError` (modelled as `.error`). -/
def createFromDlproject (d : List (String × Yaml)) (user : String) :
    Except String MergeUpstreamConfig :=
  match parseSection d "cci" {} fromDictCci with
  | .error e => .error e
  | .ok cci =>
    match parseSection d "upstream" {} fromDictUpstream with
    | .error e => .error e
    | .ok upstream =>
      match parseSection d "pull_request" { fork := user } (fromDictPullRequest user) with
      | .error e => .error e
      | .ok pull_request =>
        if d.all (fun p => topKeys.contains p.1) then
          .ok { cci := cci, upstream := upstream, pull_request := pull_request }
        else .error "unexpected keys in merge_upstream"

/-- A key somewhere in the override document that the schema does not
declare: an unexpected key at top level, or inside one of the three
recognized sections when that section is a mapping. -/
def docHasUnknownKey (d : List (String × Yaml)) : Bool :=
  d.any (fun p => !(topKeys.contains p.1)) ||
  (match d.lookup "cci" with
   | some (.dict entries) => entries.any (fun p => !(cciKeys.contains p.1))
   | _ => false) ||
  (match d.lookup "upstream" with
   | some (.dict entries) => entries.any (fun p => !(upstreamKeys.contains p.1))
   | _ => false) ||
  (match d.lookup "pull_request" with
   | some (.dict entries) => entries.any (fun p => !(pullRequestKeys.contains p.1))
   | _ => false)


/-- Update the value stored under a key of an association list, leaving other
entries alone (used for branch pointers and for `git remote set-url`). -/
def setAssoc : List (String × String) → String → String → List (String × String)
  | [], _, _ => []
  | (a, w) :: rest, k, v =>
      if a = k then (k, v) :: setAssoc rest k v else (a, w) :: setAssoc rest k v

/-- The position of `HEAD`: attached to a named branch, or detached at a
commit. `git rev-parse --abbrev-ref HEAD` prints the branch name when
attached and the literal string `HEAD` when detached. -/
inductive Head where
  | onBranch (name : String)
  | detached (commit : String)
deriving DecidableEq, Repr

/-- The repository state the guard `_preserving_branch_and_commit` protects:
the local branch pointers and the position of `HEAD`. -/
structure GitState where
  branches : List (String × String)
  head : Head
deriving DecidableEq, Repr

/-- Output of `git rev-parse --abbrev-ref HEAD`: the current branch name, or
the sentinel `HEAD` when detached. -/
def GitState.branchName (s : GitState) : String :=
  match s.head with
  | .onBranch b => b
  | .detached _ => "HEAD"

/-- Output of `git rev-parse HEAD`: the commit currently checked out. -/
def GitState.currentCommit (s : GitState) : String :=
  match s.head with
  | .onBranch b => (s.branches.lookup b).getD ""
  | .detached c => c

/-- The repository operations the guarded workflow body may perform
(checkouts, merges and resets, per the restoration invariant of the spec). -/
inductive GitOp where
  | checkoutBranch (name : String)
  | checkoutDetach (commit : String)
  | resetHard (commit : String)
  | mergeCommit (hash : String)
deriving DecidableEq, Repr

/-- Semantics of one operation. `checkoutBranch` attaches `HEAD` to an
existing branch (a checkout of a missing branch fails and changes nothing);
`checkoutDetach` detaches `HEAD` at a commit; `resetHard` moves the current
branch pointer (or the detached `HEAD`) to a commit; `mergeCommit` records a
new merge commit on whatever `HEAD` points at. -/
def applyOp (s : GitState) : GitOp → GitState
  | .checkoutBranch b =>
      if (s.branches.lookup b).isSome then { s with head := .onBranch b } else s
  | .checkoutDetach c => { s with head := .detached c }
  | .resetHard c =>
      match s.head with
      | .onBranch b => { s with branches := setAssoc s.branches b c }
      | .detached _ => { s with head := .detached c }
  | .mergeCommit h =>
      match s.head with
      | .onBranch b => { s with branches := setAssoc s.branches b h }
      | .detached _ => { s with head := .detached h }

/-- Run a sequence of operations (the guarded workflow body; a body that
raises midway simply corresponds to the prefix of operations it performed). -/
def applyOps (s : GitState) : List GitOp → GitState
  | [] => s
  | op :: rest => applyOps (applyOp s op) rest

/-- The `finally` block of `_preserving_branch_and_commit`: if the captured
branch name is the sentinel `HEAD`, run `git checkout --quiet --detach commit`
then `git reset --hard HEAD`; otherwise run `git checkout --quiet --force
branch` then `git reset --hard commit`. -/
def restoreCheckout (branch commit : String) (s : GitState) : GitState :=
  if branch = "HEAD" then
    let s1 := applyOp s (.checkoutDetach commit)
    applyOp s1 (.resetHard s1.currentCommit)
  else
    let s1 := applyOp s (.checkoutBranch branch)
    applyOp s1 (.resetHard commit)

/-- `_preserving_branch_and_commit` as a state transformer: capture branch
name and commit, run the body, and restore in the `finally` block (which runs
whether the body returned or raised). -/
def preservingBranchAndCommit (s : GitState) (body : List GitOp) : GitState :=
  restoreCheckout s.branchName s.currentCommit (applyOps s body)

theorem lookup_setAssoc_self (l : List (String × String)) (k v : String)
    (h : (l.lookup k).isSome) : (setAssoc l k v).lookup k = some v := by
  induction l with
  | nil => simp [List.lookup] at h
  | cons p rest ih =>
    obtain ⟨a, w⟩ := p
    by_cases hk : a = k
    · subst hk
      simp [setAssoc, List.lookup]
    · have hbeq : (k == a) = false := by
        simp [beq_iff_eq]
        exact fun he => hk he.symm
      have hstep : setAssoc ((a, w) :: rest) k v = (a, w) :: setAssoc rest k v := by
        simp [setAssoc, hk]
      rw [hstep]
      simp only [List.lookup, hbeq] at h ⊢
      exact ih h

theorem lookup_setAssoc_isSome (l : List (String × String)) (k v k2 : String) :
    ((setAssoc l k v).lookup k2).isSome = (l.lookup k2).isSome := by
  induction l with
  | nil => simp [setAssoc]
  | cons p rest ih =>
    obtain ⟨a, w⟩ := p
    by_cases hk : a = k
    · subst hk
      by_cases h2 : k2 = a
      · subst h2
        simp [setAssoc, List.lookup]
      · have hbeq : (k2 == a) = false := by simp [beq_iff_eq]; exact h2
        have hstep : setAssoc ((a, w) :: rest) a v = (a, v) :: setAssoc rest a v := by
          simp [setAssoc]
        rw [hstep]
        simp only [List.lookup, hbeq]
        exact ih
    · by_cases h2 : k2 = a
      · subst h2
        have hbeq : (k2 == k2) = true := by simp
        have hstep : setAssoc ((k2, w) :: rest) k v = (k2, w) :: setAssoc rest k v := by
          simp [setAssoc, hk]
        rw [hstep]
        simp [List.lookup]
      · have hbeq : (k2 == a) = false := by simp [beq_iff_eq]; exact h2
        have hstep : setAssoc ((a, w) :: rest) k v = (a, w) :: setAssoc rest k v := by
          simp [setAssoc, hk]
        rw [hstep]
        simp only [List.lookup, hbeq]
        exact ih

theorem lookup_append_of_none (l l2 : List (String × String)) (k : String)
    (h : l.lookup k = none) : (l ++ l2).lookup k = l2.lookup k := by
  induction l with
  | nil => simp
  | cons p rest ih =>
    obtain ⟨a, w⟩ := p
    by_cases hk : k = a
    · subst hk
      simp [List.lookup] at h
    · have hbeq : (k == a) = false := by simp [beq_iff_eq]; exact hk
      simp only [List.cons_append, List.lookup, hbeq] at h ⊢
      exact ih h

theorem applyOp_lookup_isSome (s : GitState) (op : GitOp) (b : String) :
    (((applyOp s op).branches.lookup b).isSome) = ((s.branches.lookup b).isSome) := by
  cases op with
  | checkoutBranch n => by_cases h : (s.branches.lookup n).isSome <;> simp [applyOp, h]
  | checkoutDetach c => simp [applyOp]
  | resetHard c =>
    cases hh : s.head with
    | onBranch bb => simp [applyOp, hh, lookup_setAssoc_isSome]
    | detached cc => simp [applyOp, hh]
  | mergeCommit h =>
    cases hh : s.head with
    | onBranch bb => simp [applyOp, hh, lookup_setAssoc_isSome]
    | detached cc => simp [applyOp, hh]

theorem applyOps_lookup_isSome (body : List GitOp) (s : GitState) (b : String) :
    (((applyOps s body).branches.lookup b).isSome) = ((s.branches.lookup b).isSome) := by
  induction body generalizing s with
  | nil => simp [applyOps]
  | cons op rest ih => simp [applyOps, ih, applyOp_lookup_isSome]



/-- One entry of the JSON printed by `gh pr list --json
number,url,author,headRefName,headRepositoryOwner`. -/
structure PullRequestRecord where
  number : Nat
  url : String
  author : String
  headRefName : String
  headRepositoryOwnerLogin : String
deriving DecidableEq, Repr

/-- Oracle for one run of the task: every observable answer of the external
tools (`git`, `gh`, `platform.system()`, `shutil.which`, `getpass.getuser()`,
`tempfile`) that the source branches on. Commands whose failure the source
does not inspect (plain `ctx.run` calls modelled as always succeeding) have
no flag here; the flags that exist correspond to `warn=True` result checks
and to the `ctx.run` calls of `_form_pr_body` and `git push`, whose failure
paths the claims are about. -/
structure Env where
  user : String
  dlproject : List (String × Yaml)
  platformSystem : String
  cleanWorktree : Bool
  ghInstalled : Bool
  ghAuthOk : Bool
  initialBranch : String
  initialCommit : String
  remotes : List (String × String)
  mergeOk : Bool
  revListCount : Nat
  pushOk : Bool
  lsFilesOut : String
  conflictFilesOk : Bool
  conflictFilesOut : String
  commitsUpstreamOk : Bool
  commitsUpstreamOut : String
  commitsLocalOk : Bool
  commitsLocalOut : String
  tmpName : String
  existingPRs : List PullRequestRecord
  removeRemoteOk : Bool

/-- The four precondition checks of `_check_preconditions`, in source order. -/
inductive CheckName where
  | platformSupported
  | cleanWorktree
  | ghInstalled
  | ghAuthenticated
deriving DecidableEq, Repr

/-- One observable side effect of the task: a precondition check being
evaluated, an external command being run, `git merge --abort` (given its own
constructor because the conflict-cleanup claims count it), and the three
status/temp file operations done through `os`/`open`/`tempfile`. -/
inductive Event where
  | check (c : CheckName)
  | run (cmd : String)
  | mergeAbort
  | removeStatusFile
  | writeStatusFile (content : String)
  | writeTempFile (path content : String)
deriving DecidableEq, Repr

/-- The four distinguished precondition failures (each is raised as
`invoke.Exit` with the message given by `exitMessage`; the spec names them
`UnsupportedPlatform` / `DirtyWorkingTree` / `MissingTool` /
`NotAuthenticated`). -/
inductive PreconditionError where
  | unsupportedPlatform
  | dirtyWorkingTree
  | missingTool
  | notAuthenticated
deriving DecidableEq, Repr

/-- The literal `invoke.Exit` message of each precondition failure. -/
def PreconditionError.exitMessage (config : MergeUpstreamConfig) :
    PreconditionError → String
  | .unsupportedPlatform => "Run this task on macOS or Linux"
  | .dirtyWorkingTree => "The local worktree has uncommitted changes"
  | .missingTool =>
      "This task requires the GitHub CLI. See installation instructions at https://cli.github.com/"
  | .notAuthenticated =>
      "GitHub CLI must be logged in to " ++ config.upstream.host ++
      ", or a token supplied in GH_TOKEN; see https://cli.github.com/manual/gh_auth_login"

/-- Failures `_merge_and_push` can raise. -/
inductive MergeErr where
  | conflicts
  | unexpectedExit (cmd : String)
deriving DecidableEq, Repr

/-- Errors a whole run can end with. -/
inductive RunErr where
  | configurationError (msg : String)
  | precondition (e : PreconditionError)
  | unexpectedExit (cmd : String)
  | assertionFailure
deriving DecidableEq, Repr

def diffIndexCmd : String := "git diff-index --quiet HEAD --"

def ghAuthCmd (c : MergeUpstreamConfig) : String :=
  "gh auth status --hostname " ++ c.upstream.host

def revParseBranchCmd : String := "git rev-parse --abbrev-ref HEAD"

def revParseHeadCmd : String := "git rev-parse HEAD"

def getUrlCmd (c : MergeUpstreamConfig) : String :=
  "git remote get-url " ++ c.upstream.remote_name

def setUrlCmd (c : MergeUpstreamConfig) : String :=
  "git remote set-url " ++ c.upstream.remote_name ++ " " ++ c.upstream.url

def addRemoteCmd (c : MergeUpstreamConfig) : String :=
  "git remote add " ++ c.upstream.remote_name ++ " " ++ c.upstream.url

def updateRemoteCmd (c : MergeUpstreamConfig) : String :=
  "git remote update " ++ c.upstream.remote_name

def removeRemoteCmd (c : MergeUpstreamConfig) : String :=
  "git remote remove " ++ c.upstream.remote_name

def checkoutDetachCmd (c : MergeUpstreamConfig) : String :=
  "git checkout --quiet --detach " ++ c.upstream.remote_name ++ "/" ++ c.upstream.branch

def fetchCciCmd (c : MergeUpstreamConfig) : String :=
  "git fetch " ++ c.cci.url ++ " " ++ c.cci.branch

def mergeCmd (c : MergeUpstreamConfig) : String :=
  "git merge --no-ff --no-edit --into-name " ++ c.upstream.branch ++ " FETCH_HEAD"

def revListCmd (c : MergeUpstreamConfig) : String :=
  "git rev-list " ++ c.upstream.remote_name ++ "/" ++ c.upstream.branch ++ "..HEAD --count"

def pushCmd (c : MergeUpstreamConfig) : String :=
  "git push " ++ c.upstream.remote_name ++ " HEAD:refs/heads/" ++ c.upstream.branch

def lsFilesCmd : String := "git ls-files -u"

def diffFilterCmd : String := "git diff --no-color --name-only --diff-filter=U"

def logUpstreamCmd : String :=
  "git log --no-color --merge HEAD..MERGE_HEAD --pretty=format:\"%h -%d %s (%cr) <%an>\""

def logLocalCmd : String :=
  "git log --no-color --merge MERGE_HEAD..HEAD --pretty=format:\"%h -%d %s (%cr) <%an>\""

def pushPrCmd (c : MergeUpstreamConfig) : String :=
  "git push --force " ++ c.pull_request.url ++ " FETCH_HEAD:refs/heads/" ++
  c.pull_request.merge_branch_name

def ghPrListCmd (c : MergeUpstreamConfig) : String :=
  "gh pr list --repo " ++ c.upstream.host ++ "/" ++ c.upstream.organization ++
  "/conan-center-index --json number,url,author,headRefName,headRepositoryOwner "

/-- `shlex.quote("Merge in changes from conan-io/master")`. -/
def shlexQuotedTitle : String := "\x27Merge in changes from conan-io/master\x27"

def labelsPart (c : MergeUpstreamConfig) : String :=
  if c.pull_request.labels.isEmpty then ""
  else " --label " ++ String.intercalate "," c.pull_request.labels

def assigneePart (c : MergeUpstreamConfig) : String :=
  match c.pull_request.assignee with
  | some a => if a = "" then "" else " --assignee " ++ a
  | none => ""

def reviewerPart (c : MergeUpstreamConfig) : String :=
  if c.pull_request.reviewers.isEmpty then ""
  else " --reviewer " ++ String.intercalate "," c.pull_request.reviewers

def ghPrCreateCmd (c : MergeUpstreamConfig) (tmp : String) : String :=
  "gh pr create --repo " ++ c.upstream.host ++ "/" ++ c.upstream.organization ++
  "/conan-center-index --base " ++ c.upstream.branch ++ " --title " ++ shlexQuotedTitle ++
  " --body-file " ++ tmp ++ " --head " ++ c.pull_request.fork ++ ":" ++
  c.pull_request.merge_branch_name ++ labelsPart c ++ assigneePart c ++ reviewerPart c

def ghPrEditCmd (c : MergeUpstreamConfig) (url tmp : String) : String :=
  "gh pr edit --repo " ++ c.upstream.host ++ "/" ++ c.upstream.organization ++
  "/conan-center-index " ++ url ++ " --body-file " ++ tmp

/-- `_check_preconditions`: platform, clean worktree, GitHub CLI present,
CLI authenticated, in that order, raising on the first failure. Each check
emits a `.check` event when it is evaluated; the two checks that shell out
also emit their (read-only) commands. -/
def checkPreconditions (e : Env) (config : MergeUpstreamConfig) :
    Except PreconditionError Unit × List Event :=
  if !(["Darwin", "Linux"].contains e.platformSystem) then
    (.error .unsupportedPlatform, [.check .platformSupported])
  else
    if !e.cleanWorktree then
      (.error .dirtyWorkingTree,
       [.check .platformSupported, .run diffIndexCmd, .check .cleanWorktree])
    else
      if !e.ghInstalled then
        (.error .missingTool,
         [.check .platformSupported, .run diffIndexCmd, .check .cleanWorktree,
          .check .ghInstalled])
      else
        if !e.ghAuthOk then
          (.error .notAuthenticated,
           [.check .platformSupported, .run diffIndexCmd, .check .cleanWorktree,
            .check .ghInstalled, .run (ghAuthCmd config), .check .ghAuthenticated])
        else
          (.ok (),
           [.check .platformSupported, .run diffIndexCmd, .check .cleanWorktree,
            .check .ghInstalled, .run (ghAuthCmd config), .check .ghAuthenticated])

/-- Entry half of the `_merge_remote` context manager: `git remote get-url`
(with `warn=True`; it reports the URL iff the remote exists), then either
`set-url` (existing remote with nonblank URL) or `add` (missing remote), then
`git remote update`. A remote that exists with a blank URL sends the source
down the `git remote add` path, which fails on an existing remote; that is
the `.error` case. Returns the updated remote table. -/
def mergeRemoteEnter (e : Env) (config : MergeUpstreamConfig) :
    Except String (List (String × String)) × List Event :=
  match e.remotes.lookup config.upstream.remote_name with
  | some url =>
      if pyStrip url ≠ "" then
        (.ok (setAssoc e.remotes config.upstream.remote_name config.upstream.url),
         [.run (getUrlCmd config), .run (setUrlCmd config), .run (updateRemoteCmd config)])
      else
        (.error (addRemoteCmd config), [.run (getUrlCmd config), .run (addRemoteCmd config)])
  | none =>
      (.ok (e.remotes ++ [(config.upstream.remote_name, config.upstream.url)]),
       [.run (getUrlCmd config), .run (addRemoteCmd config), .run (updateRemoteCmd config)])

/-- `_merge_and_push`: detach onto the remote branch tip, fetch the upstream
branch, attempt the merge (`warn=True`). On success count the commits ahead
of the remote tracking branch and push only when nonzero; on merge failure
inspect `git ls-files -u` (`warn=True`, modelled as succeeding with the
index entries on stdout) and raise `MergeHadConflicts` iff its stripped
output is nonempty, otherwise `UnexpectedExit` wrapping the merge result. -/
def mergeAndPush (e : Env) (config : MergeUpstreamConfig) :
    Except MergeErr MergeStatus × List Event :=
  let evs := [Event.run (checkoutDetachCmd config), Event.run (fetchCciCmd config),
              Event.run (mergeCmd config)]
  if e.mergeOk then
    let evs := evs ++ [Event.run (revListCmd config)]
    if e.revListCount ≠ 0 then
      if e.pushOk then (.ok .MERGED, evs ++ [Event.run (pushCmd config)])
      else (.error (.unexpectedExit (pushCmd config)), evs ++ [Event.run (pushCmd config)])
    else
      (.ok .UP_TO_DATE, evs)
  else
    let evs := evs ++ [Event.run lsFilesCmd]
    if pyStrip e.lsFilesOut ≠ "" then (.error .conflicts, evs)
    else (.error (.unexpectedExit (mergeCmd config)), evs)

/-- The pull-request body: `textwrap.dedent` applied to the source template
followed by `.format`, written out with each section heading as its own
segment. `cf`, `cu`, `cl` are the outputs of the three gathering commands. -/
def formPrBodyText (config : MergeUpstreamConfig) (cf cu cl : String) : String :=
  "\nMerge changes from conan-io/conan-center-index into " ++ config.upstream.branch ++
  ".\n\nThis PR was automatically created due to merge conflicts in the automated merge.\n\n" ++
  "## Conflict information" ++ "\n\n" ++
  "### List of conflict files" ++ "\n\n" ++ cf ++ "\n\n" ++
  "### Commits for conflict files on `conan-io`" ++ "\n\n" ++ cu ++ "\n\n" ++
  "### Commits for conflict files, local" ++ "\n\n" ++ cl ++ "\n"

/-- `_form_pr_body`: run the three gathering commands (conflict file list,
commits unique to the upstream side, commits unique to the local side, all
without a PTY); each is a plain `ctx.run`, so a failure raises with that
command. On success, format the template. -/
def formPrBody (e : Env) (config : MergeUpstreamConfig) :
    Except String String × List Event :=
  if !e.conflictFilesOk then (.error diffFilterCmd, [.run diffFilterCmd])
  else if !e.commitsUpstreamOk then
    (.error logUpstreamCmd, [.run diffFilterCmd, .run logUpstreamCmd])
  else if !e.commitsLocalOk then
    (.error logLocalCmd, [.run diffFilterCmd, .run logUpstreamCmd, .run logLocalCmd])
  else
    (.ok (formPrBodyText config e.conflictFilesOut e.commitsUpstreamOut e.commitsLocalOut),
     [.run diffFilterCmd, .run logUpstreamCmd, .run logLocalCmd])

/-- The filter inside `_list_merge_pull_requests`: keep the pull requests
whose head branch is the configured merge branch and whose head-repository
owner is the configured fork. -/
def matchingPullRequests (e : Env) (config : MergeUpstreamConfig) :
    List PullRequestRecord :=
  e.existingPRs.filter (fun r =>
    r.headRefName == config.pull_request.merge_branch_name &&
    r.headRepositoryOwnerLogin == config.pull_request.fork)

/-- `_create_pull_request`: fetch the upstream ref, force-push it to the PR
fork, write the body to a temp file, list matching pull requests; edit the
single match if there is one, create a new pull request if there is none, and
fail the `assert len(existing_prs) == 1` when there are several. -/
def createPullRequest (e : Env) (config : MergeUpstreamConfig) (pr_body : String) :
    Except RunErr Unit × List Event :=
  let evs := [Event.run (fetchCciCmd config), Event.run (pushPrCmd config),
              Event.writeTempFile e.tmpName pr_body, Event.run (ghPrListCmd config)]
  match matchingPullRequests e config with
  | [] => (.ok (), evs ++ [Event.run (ghPrCreateCmd config e.tmpName)])
  | [r] => (.ok (), evs ++ [Event.run (ghPrEditCmd config r.url e.tmpName)])
  | _ => (.error .assertionFailure, evs)

/-- The body of the `with` block in `merge_upstream`: try `_merge_and_push`
and write its status; on `MergeHadConflicts`, build the PR body with
`git merge --abort` in a `finally` (so the abort runs even when the body
construction raises), then `_create_pull_request` and write the
`PULL_REQUEST` status. -/
def workflowBody (e : Env) (config : MergeUpstreamConfig) :
    Except RunErr MergeStatus × List Event :=
  match mergeAndPush e config with
  | (.ok st, evs) => (.ok st, evs ++ [Event.writeStatusFile st.name])
  | (.error (.unexpectedExit cmd), evs) => (.error (.unexpectedExit cmd), evs)
  | (.error .conflicts, evs) =>
      match formPrBody e config with
      | (.error cmd, evsB) =>
          (.error (.unexpectedExit cmd), evs ++ evsB ++ [Event.mergeAbort])
      | (.ok body, evsB) =>
          match createPullRequest e config body with
          | (.error err, evsC) =>
              (.error err, evs ++ evsB ++ [Event.mergeAbort] ++ evsC)
          | (.ok _, evsC) =>
              (.ok .PULL_REQUEST,
               evs ++ evsB ++ [Event.mergeAbort] ++ evsC ++
               [Event.writeStatusFile MergeStatus.PULL_REQUEST.name])

/-- The `finally` commands of `_preserving_branch_and_commit`, keyed on the
captured branch name and commit. -/
def restoreEvents (e : Env) : List Event :=
  if e.initialBranch = "HEAD" then
    [.run ("git checkout --quiet --detach " ++ e.initialCommit), .run "git reset --hard HEAD"]
  else
    [.run ("git checkout --quiet --force " ++ e.initialBranch),
     .run ("git reset --hard " ++ e.initialCommit)]

/-- The whole `merge_upstream` task: load configuration, check preconditions,
remove the status file, acquire `_preserving_branch_and_commit` (two
`rev-parse` reads) and `_merge_remote`, run the body, then release the
context managers in reverse order on every exit path (`git remote remove`
with `warn=True`, then the checkout restore). -/
def mergeUpstream (e : Env) : Except RunErr MergeStatus × List Event :=
  match createFromDlproject e.dlproject e.user with
  | .error msg => (.error (.configurationError msg), [])
  | .ok config =>
    match checkPreconditions e config with
    | (.error pe, evs) => (.error (.precondition pe), evs)
    | (.ok _, evs) =>
      let evs := evs ++ [Event.removeStatusFile, Event.run revParseBranchCmd,
                         Event.run revParseHeadCmd]
      match mergeRemoteEnter e config with
      | (.error cmd, evsR) =>
          (.error (.unexpectedExit cmd),
           evs ++ evsR ++ [Event.run (removeRemoteCmd config)] ++ restoreEvents e)
      | (.ok _, evsR) =>
          match workflowBody e config with
          | (res, evsB) =>
              (res, evs ++ evsR ++ evsB ++ [Event.run (removeRemoteCmd config)] ++
                    restoreEvents e)

/-- Effect of one event on the status-marker file. -/
def statusFileStep (s : Option String) : Event → Option String
  | .removeStatusFile => none
  | .writeStatusFile c => some c
  | .check _ => s
  | .run _ => s
  | .mergeAbort => s
  | .writeTempFile _ _ => s

/-- The content of the status-marker file after a trace, given its content
before the run (`none` = absent). -/
def statusFileAfter (init : Option String) (evs : List Event) : Option String :=
  evs.foldl statusFileStep init

def isStatusWrite : Event → Bool
  | .writeStatusFile _ => true
  | _ => false

/-- How many times a trace writes the status file. -/
def writeCount (evs : List Event) : Nat := (evs.filter isStatusWrite).length

def isAbort : Event → Bool
  | .mergeAbort => true
  | _ => false

/-- How many times a trace runs `git merge --abort`. -/
def abortCount (evs : List Event) : Nat := (evs.filter isAbort).length

/-- Command prefixes of the read-only `git`/`gh` invocations the task uses;
anything else run against the repository is counted as a mutation. -/
def readOnlyPrefixes : List String :=
  ["git rev-parse", "git diff-index", "git ls-files", "git rev-list", "git log",
   "git diff ", "gh auth status", "gh pr list", "git remote get-url"]

def cmdReadOnly (cmd : String) : Bool :=
  readOnlyPrefixes.any (fun p => p.data.isPrefixOf cmd.data)

/-- Whether an event mutates the repository (file operations on the status
marker and temp file touch the working directory, not the repository). -/
def Event.isRepoMutation : Event → Bool
  | .run cmd => !(cmdReadOnly cmd)
  | .mergeAbort => true
  | .check _ => false
  | .removeStatusFile => false
  | .writeStatusFile _ => false
  | .writeTempFile _ _ => false



/-- Events that are neither a status-file operation nor the merge abort
(every component of the workflow except the driver emits only these). -/
def plainEvent : Event → Bool
  | .check _ => true
  | .run _ => true
  | .writeTempFile _ _ => true
  | .mergeAbort => false
  | .removeStatusFile => false
  | .writeStatusFile _ => false

/-- A sample configuration (all defaults for user `builder`). -/
def cfgU : MergeUpstreamConfig := defaultMergeUpstreamConfig "builder"

/-- A sample environment where every check passes and the merge finds the
branch already up to date. -/
def envHappy : Env where
  user := "builder"
  dlproject := []
  platformSystem := "Linux"
  cleanWorktree := true
  ghInstalled := true
  ghAuthOk := true
  initialBranch := "develop"
  initialCommit := "0123abc"
  remotes := [("origin", "git@example.com:org/repo.git")]
  mergeOk := true
  revListCount := 0
  pushOk := true
  lsFilesOut := ""
  conflictFilesOk := true
  conflictFilesOut := "recipes/zlib/config.yml"
  commitsUpstreamOk := true
  commitsUpstreamOut := "1a2b3c - fix (2 days ago) <u>"
  commitsLocalOk := true
  commitsLocalOut := "4d5e6f - local fix (3 days ago) <v>"
  tmpName := "/tmp/pr-body-1"
  existingPRs := []
  removeRemoteOk := true

/-- A sample open pull request matching the configured merge branch/fork. -/
def samplePR : PullRequestRecord where
  number := 7
  url := "https://octocat.dlogics.com/datalogics/conan-center-index/pull/7"
  author := "builder"
  headRefName := "merge-from-conan-io"
  headRepositoryOwnerLogin := "builder"

/-- A sample repository state on a named branch. -/
def sampleRepo : GitState where
  branches := [("develop", "c1"), ("main", "c2")]
  head := .onBranch "develop"

/-- A sample guarded body: detach, merge a commit, reset. -/
def sampleBody : List GitOp :=
  [.checkoutDetach "c9", .mergeCommit "c3", .checkoutBranch "main", .resetHard "c7"]



/-- One string occurring inside another (used to state what sections the
pull-request body contains). -/
def SubstrOf (needle s : String) : Prop := ∃ x y, s = x ++ needle ++ y

theorem statusFileAfter_append (init : Option String) (l1 l2 : List Event) :
    statusFileAfter init (l1 ++ l2) = statusFileAfter (statusFileAfter init l1) l2 := by
  simp [statusFileAfter, List.foldl_append]

theorem statusFileAfter_of_plain (l : List Event) (h : l.all plainEvent = true)
    (s : Option String) : statusFileAfter s l = s := by
  induction l generalizing s with
  | nil => rfl
  | cons ev rest ih =>
    simp only [List.all_cons, Bool.and_eq_true] at h
    have hstep : statusFileStep s ev = s := by
      cases ev <;> simp_all [plainEvent, statusFileStep]
    simp only [statusFileAfter, List.foldl_cons, hstep]
    exact ih h.2 s

theorem writeCount_append (l1 l2 : List Event) :
    writeCount (l1 ++ l2) = writeCount l1 + writeCount l2 := by
  simp [writeCount, List.filter_append]

theorem abortCount_append (l1 l2 : List Event) :
    abortCount (l1 ++ l2) = abortCount l1 + abortCount l2 := by
  simp [abortCount, List.filter_append]

theorem writeCount_of_plain (l : List Event) (h : l.all plainEvent = true) :
    writeCount l = 0 := by
  induction l with
  | nil => rfl
  | cons ev rest ih =>
    simp only [List.all_cons, Bool.and_eq_true] at h
    have hw : isStatusWrite ev = false := by
      cases ev <;> simp_all [plainEvent, isStatusWrite]
    simp only [writeCount, List.filter_cons, hw]
    exact ih h.2

theorem abortCount_of_plain (l : List Event) (h : l.all plainEvent = true) :
    abortCount l = 0 := by
  induction l with
  | nil => rfl
  | cons ev rest ih =>
    simp only [List.all_cons, Bool.and_eq_true] at h
    have hw : isAbort ev = false := by
      cases ev <;> simp_all [plainEvent, isAbort]
    simp only [abortCount, List.filter_cons, hw]
    exact ih h.2

theorem checkPreconditions_events_plain (e : Env) (c : MergeUpstreamConfig) :
    ((checkPreconditions e c).2).all plainEvent = true := by
  unfold checkPreconditions
  repeat' split
  all_goals simp [plainEvent]

theorem mergeRemoteEnter_events_plain (e : Env) (c : MergeUpstreamConfig) :
    ((mergeRemoteEnter e c).2).all plainEvent = true := by
  unfold mergeRemoteEnter
  repeat' split
  all_goals simp [plainEvent]

theorem mergeAndPush_events_plain (e : Env) (c : MergeUpstreamConfig) :
    ((mergeAndPush e c).2).all plainEvent = true := by
  unfold mergeAndPush
  repeat' split
  all_goals simp [plainEvent]

theorem formPrBody_events_plain (e : Env) (c : MergeUpstreamConfig) :
    ((formPrBody e c).2).all plainEvent = true := by
  unfold formPrBody
  repeat' split
  all_goals simp [plainEvent]

theorem createPullRequest_events_plain (e : Env) (c : MergeUpstreamConfig) (b : String) :
    ((createPullRequest e c b).2).all plainEvent = true := by
  unfold createPullRequest
  repeat' split
  all_goals simp [plainEvent]

theorem restoreEvents_plain (e : Env) : (restoreEvents e).all plainEvent = true := by
  unfold restoreEvents
  repeat' split
  all_goals simp [plainEvent]


theorem substrOf_iff_dataInfix (needle s : String) :
    SubstrOf needle s ↔ needle.data <:+: s.data := by
  constructor
  · rintro ⟨x, y, rfl⟩
    exact ⟨x.data, y.data, by simp [String.data_append]⟩
  · rintro ⟨x, y, h⟩
    refine ⟨String.mk x, String.mk y, ?_⟩
    apply String.ext
    simp [String.data_append]
    rw [← List.append_assoc]
    exact h.symm

theorem statusFileAfter_nil (s : Option String) : statusFileAfter s [] = s := rfl

theorem statusFileAfter_cons (s : Option String) (ev : Event) (l : List Event) :
    statusFileAfter s (ev :: l) = statusFileAfter (statusFileStep s ev) l := rfl

theorem writeCount_cons (ev : Event) (l : List Event) :
    writeCount (ev :: l) = (if isStatusWrite ev then 1 else 0) + writeCount l := by
  simp only [writeCount, List.filter_cons]
  split <;> simp [Nat.add_comm]

theorem abortCount_cons (ev : Event) (l : List Event) :
    abortCount (ev :: l) = (if isAbort ev then 1 else 0) + abortCount l := by
  simp only [abortCount, List.filter_cons]
  split <;> simp [Nat.add_comm]

theorem writeCount_nil : writeCount [] = 0 := rfl

theorem abortCount_nil : abortCount [] = 0 := rfl

theorem workflowBody_writeCount (e : Env) (c : MergeUpstreamConfig) :
    writeCount (workflowBody e c).2 ≤ 1 := by
  unfold workflowBody
  rcases hmp : mergeAndPush e c with ⟨res, evs⟩
  try simp only [hmp]
  have hplain : evs.all plainEvent = true := by
    have h := mergeAndPush_events_plain e c
    rwa [hmp] at h
  have hz := writeCount_of_plain evs hplain
  cases res with
  | ok st =>
    simp [writeCount_append, writeCount_cons, writeCount_nil, hz, isStatusWrite]
  | error me =>
    cases me with
    | unexpectedExit cmd => simp [hz]
    | conflicts =>
      rcases hfb : formPrBody e c with ⟨bres, evsB⟩
      try simp only [hfb]
      have hplainB : evsB.all plainEvent = true := by
        have h := formPrBody_events_plain e c
        rwa [hfb] at h
      have hzB := writeCount_of_plain evsB hplainB
      cases bres with
      | error cmd =>
        simp [writeCount_append, writeCount_cons, writeCount_nil, hz, hzB, isStatusWrite]
      | ok body =>
        rcases hcp : createPullRequest e c body with ⟨cres, evsC⟩
        try simp only [hcp]
        have hplainC : evsC.all plainEvent = true := by
          have h := createPullRequest_events_plain e c body
          rwa [hcp] at h
        have hzC := writeCount_of_plain evsC hplainC
        cases cres with
        | error err =>
          simp [writeCount_append, writeCount_cons, writeCount_nil, hz, hzB, hzC,
                isStatusWrite]
        | ok u =>
          simp [writeCount_append, writeCount_cons, writeCount_nil, hz, hzB, hzC,
                isStatusWrite]

theorem workflowBody_status_ok (e : Env) (c : MergeUpstreamConfig) (s : Option String)
    (st : MergeStatus) (h : (workflowBody e c).1 = .ok st) :
    statusFileAfter s (workflowBody e c).2 = some st.name := by
  unfold workflowBody at h ⊢
  rcases hmp : mergeAndPush e c with ⟨res, evs⟩
  try simp only [hmp] at h ⊢
  have hplain : evs.all plainEvent = true := by
    have hq := mergeAndPush_events_plain e c
    rwa [hmp] at hq
  have he1 := statusFileAfter_of_plain evs hplain
  cases res with
  | ok st2 =>
    simp at h
    subst h
    simp [statusFileAfter_append, statusFileAfter_cons, statusFileAfter_nil, he1,
          statusFileStep]
  | error me =>
    cases me with
    | unexpectedExit cmd => simp at h
    | conflicts =>
      rcases hfb : formPrBody e c with ⟨bres, evsB⟩
      try simp only [hfb] at h ⊢
      have hplainB : evsB.all plainEvent = true := by
        have hq := formPrBody_events_plain e c
        rwa [hfb] at hq
      have he2 := statusFileAfter_of_plain evsB hplainB
      cases bres with
      | error cmd => simp at h
      | ok body =>
        rcases hcp : createPullRequest e c body with ⟨cres, evsC⟩
        try simp only [hcp] at h ⊢
        have hplainC : evsC.all plainEvent = true := by
          have hq := createPullRequest_events_plain e c body
          rwa [hcp] at hq
        have he3 := statusFileAfter_of_plain evsC hplainC
        cases cres with
        | error err => simp at h
        | ok u =>
          simp at h
          subst h
          simp [statusFileAfter_append, statusFileAfter_cons, statusFileAfter_nil,
                he1, he2, he3, statusFileStep]

theorem workflowBody_status_error (e : Env) (c : MergeUpstreamConfig) (s : Option String)
    (err : RunErr) (h : (workflowBody e c).1 = .error err) :
    statusFileAfter s (workflowBody e c).2 = s := by
  unfold workflowBody at h ⊢
  rcases hmp : mergeAndPush e c with ⟨res, evs⟩
  try simp only [hmp] at h ⊢
  have hplain : evs.all plainEvent = true := by
    have hq := mergeAndPush_events_plain e c
    rwa [hmp] at hq
  have he1 := statusFileAfter_of_plain evs hplain
  cases res with
  | ok st2 => simp at h
  | error me =>
    cases me with
    | unexpectedExit cmd => simpa using he1 s
    | conflicts =>
      rcases hfb : formPrBody e c with ⟨bres, evsB⟩
      try simp only [hfb] at h ⊢
      have hplainB : evsB.all plainEvent = true := by
        have hq := formPrBody_events_plain e c
        rwa [hfb] at hq
      have he2 := statusFileAfter_of_plain evsB hplainB
      cases bres with
      | error cmd =>
        simp [statusFileAfter_append, statusFileAfter_cons, statusFileAfter_nil,
              he1, he2, statusFileStep]
      | ok body =>
        rcases hcp : createPullRequest e c body with ⟨cres, evsC⟩
        try simp only [hcp] at h ⊢
        have hplainC : evsC.all plainEvent = true := by
          have hq := createPullRequest_events_plain e c body
          rwa [hcp] at hq
        have he3 := statusFileAfter_of_plain evsC hplainC
        cases cres with
        | error err2 =>
          simp [statusFileAfter_append, statusFileAfter_cons, statusFileAfter_nil,
                he1, he2, he3, statusFileStep]
        | ok u => simp at h

/-- C1: for every execution of the guarded workflow body (any sequence of
checkouts, merges, and resets, whether the body returned or raised — a raise
corresponds to the prefix of operations performed), after
`_preserving_branch_and_commit` releases, the branch name and commit hash
equal the values captured at entry; when the captured branch name is the
detached-HEAD sentinel, HEAD is re-detached at the recorded commit, otherwise
the original branch is checked out by name and reset to the recorded commit.
The hypothesis says the starting state is well formed: an attached HEAD
points at an existing branch. -/
theorem preserving_branch_and_commit_restores (s : GitState) (body : List GitOp)
    (hwf : ∀ b, s.head = .onBranch b → (s.branches.lookup b).isSome) :
    (preservingBranchAndCommit s body).branchName = s.branchName ∧
    (preservingBranchAndCommit s body).currentCommit = s.currentCommit ∧
    (s.branchName = "HEAD" →
      (preservingBranchAndCommit s body).head = .detached s.currentCommit) ∧
    (s.branchName ≠ "HEAD" →
      (preservingBranchAndCommit s body).head = .onBranch s.branchName) := by
  cases hh : s.head with
  | detached c =>
    have hbn : s.branchName = "HEAD" := by simp [GitState.branchName, hh]
    have hcc : s.currentCommit = c := by simp [GitState.currentCommit, hh]
    have hres : preservingBranchAndCommit s body =
        { applyOps s body with head := .detached c } := by
      unfold preservingBranchAndCommit restoreCheckout
      rw [hbn, hcc]
      simp [applyOp, GitState.currentCommit]
    refine ⟨?_, ?_, ?_, ?_⟩
    · rw [hres, hbn]; rfl
    · rw [hres, hcc]; rfl
    · intro _
      rw [hres, hcc]
    · intro hne
      exact absurd hbn hne
  | onBranch b =>
    have hbn : s.branchName = b := by simp [GitState.branchName, hh]
    by_cases hbH : b = "HEAD"
    · subst hbH
      have hbn2 : s.branchName = "HEAD" := hbn
      have hres : preservingBranchAndCommit s body =
          { applyOps s body with head := .detached s.currentCommit } := by
        unfold preservingBranchAndCommit restoreCheckout
        rw [hbn2]
        simp [applyOp, GitState.currentCommit]
      refine ⟨?_, ?_, ?_, ?_⟩
      · rw [hres, hbn2]; rfl
      · rw [hres]; rfl
      · intro _
        rw [hres]
      · intro hne
        exact absurd hbn2 hne
    · have hsome := hwf b hh
      have hsome2 : ((applyOps s body).branches.lookup b).isSome := by
        rw [applyOps_lookup_isSome]
        exact hsome
      have hres : preservingBranchAndCommit s body =
          { branches := setAssoc (applyOps s body).branches b s.currentCommit,
            head := .onBranch b } := by
        unfold preservingBranchAndCommit restoreCheckout
        rw [hbn]
        rw [if_neg hbH]
        simp [applyOp, hsome2]
      have hlook := lookup_setAssoc_self ((applyOps s body).branches) b s.currentCommit hsome2
      refine ⟨?_, ?_, ?_, ?_⟩
      · rw [hres, hbn]; rfl
      · rw [hres]
        have hcc2 : ({ branches := setAssoc (applyOps s body).branches b s.currentCommit,
                       head := Head.onBranch b } : GitState).currentCommit =
            ((setAssoc (applyOps s body).branches b s.currentCommit).lookup b).getD "" := rfl
        rw [hcc2, hlook]
        rfl
      · intro hHd
        exact absurd (hbn.symm.trans hHd) hbH
      · intro _
        rw [hres, hbn]

/-- Witness for C1 at a concrete repository and body. -/
theorem preserving_branch_and_commit_restores_witness :
    (preservingBranchAndCommit sampleRepo sampleBody).branchName = "develop" ∧
    (preservingBranchAndCommit sampleRepo sampleBody).currentCommit = "c1" := by
  have hwf : ∀ b, sampleRepo.head = .onBranch b → (sampleRepo.branches.lookup b).isSome := by
    intro b hb
    have hb2 : Head.onBranch "develop" = Head.onBranch b := hb
    injection hb2 with hbe
    subst hbe
    decide
  have h := preserving_branch_and_commit_restores sampleRepo sampleBody hwf
  exact ⟨h.1.trans (by decide), h.2.1.trans (by decide)⟩


theorem append_ne_append (a x b y : String)
    (h1 : a.data.isPrefixOf b.data = false) (h2 : b.data.isPrefixOf a.data = false) :
    a ++ x ≠ b ++ y := by
  intro he
  have hd : a.data ++ x.data = b.data ++ y.data := by
    have hq := congrArg String.data he
    simpa [String.data_append] using hq
  have ha : a.data <+: (a.data ++ x.data) := List.prefix_append _ _
  have hb : b.data <+: (a.data ++ x.data) := by
    rw [hd]
    exact List.prefix_append _ _
  cases List.prefix_or_prefix_of_prefix ha hb with
  | inl hp =>
    have := List.isPrefixOf_iff_prefix.mpr hp
    rw [h1] at this
    exact Bool.false_ne_true this
  | inr hp =>
    have := List.isPrefixOf_iff_prefix.mpr hp
    rw [h2] at this
    exact Bool.false_ne_true this

theorem append_ne_lit (a x b : String)
    (h1 : a.data.isPrefixOf b.data = false) : a ++ x ≠ b := by
  intro he
  have hd : a.data ++ x.data = b.data := by
    have hq := congrArg String.data he
    simpa [String.data_append] using hq
  have ha : a.data <+: b.data := ⟨x.data, hd⟩
  have := List.isPrefixOf_iff_prefix.mpr ha
  rw [h1] at this
  exact Bool.false_ne_true this

theorem cmdReadOnly_append (p a b : String) (hmem : p ∈ readOnlyPrefixes)
    (hpre : p.data.isPrefixOf a.data = true) : cmdReadOnly (a ++ b) = true := by
  unfold cmdReadOnly
  apply List.any_eq_true.mpr
  refine ⟨p, hmem, ?_⟩
  rw [List.isPrefixOf_iff_prefix] at hpre ⊢
  refine hpre.trans ?_
  rw [String.data_append]
  exact List.prefix_append _ _

/-- C2: for every run of the merge-and-push step in which the merge command
reports failure, `MergeHadConflicts` is raised if and only if the index
contains at least one unmerged path at that point (observed as nonblank
`git ls-files -u` output); a failed merge with zero unmerged paths raises an
unexpected-failure error wrapping the merge command; and a merge failure
never produces a normal `MergeStatus`. -/
theorem merge_conflict_detection (e : Env) (c : MergeUpstreamConfig)
    (h : e.mergeOk = false) :
    ((mergeAndPush e c).1 = .error .conflicts ↔ pyStrip e.lsFilesOut ≠ "") ∧
    (pyStrip e.lsFilesOut = "" →
      (mergeAndPush e c).1 = .error (.unexpectedExit (mergeCmd c))) ∧
    (∀ st, (mergeAndPush e c).1 ≠ .ok st) := by
  unfold mergeAndPush
  by_cases h2 : pyStrip e.lsFilesOut = "" <;> simp [h, h2]

/-- Witness for C2: a failed merge with an unmerged index entry raises
`MergeHadConflicts`. -/
theorem merge_conflict_detection_witness :
    (mergeAndPush { envHappy with mergeOk := false, lsFilesOut := "100644 4a5e 1\tfileA" }
        cfgU).1 = .error .conflicts :=
  (merge_conflict_detection _ cfgU rfl).1.mpr (by decide)

/-- C3: when the merge succeeds cleanly, zero commits ahead of the remote
tracking branch means no push is performed and the outcome is `UP_TO_DATE`
(spec: `UpToDate`); a nonzero count means the current commit is pushed to the
remote branch ref and the outcome is `MERGED` (spec: `Merged`). -/
theorem merge_push_behavior (e : Env) (c : MergeUpstreamConfig) (h : e.mergeOk = true) :
    (e.revListCount = 0 →
      (mergeAndPush e c).1 = .ok .UP_TO_DATE ∧
      Event.run (pushCmd c) ∉ (mergeAndPush e c).2) ∧
    (e.revListCount ≠ 0 → e.pushOk = true →
      (mergeAndPush e c).1 = .ok .MERGED ∧
      Event.run (pushCmd c) ∈ (mergeAndPush e c).2) := by
  have hp : pushCmd c =
      "git push " ++ (c.upstream.remote_name ++ (" HEAD:refs/heads/" ++ c.upstream.branch)) := by
    simp [pushCmd, String.append_assoc]
  have e1 : pushCmd c ≠ checkoutDetachCmd c := by
    have hc : checkoutDetachCmd c =
        "git checkout --quiet --detach " ++
          (c.upstream.remote_name ++ ("/" ++ c.upstream.branch)) := by
      simp [checkoutDetachCmd, String.append_assoc]
    rw [hp, hc]
    exact append_ne_append _ _ _ _ (by decide) (by decide)
  have e2 : pushCmd c ≠ fetchCciCmd c := by
    have hc : fetchCciCmd c = "git fetch " ++ (c.cci.url ++ (" " ++ c.cci.branch)) := by
      simp [fetchCciCmd, String.append_assoc]
    rw [hp, hc]
    exact append_ne_append _ _ _ _ (by decide) (by decide)
  have e3 : pushCmd c ≠ mergeCmd c := by
    have hc : mergeCmd c =
        "git merge --no-ff --no-edit --into-name " ++ (c.upstream.branch ++ " FETCH_HEAD") := by
      simp [mergeCmd, String.append_assoc]
    rw [hp, hc]
    exact append_ne_append _ _ _ _ (by decide) (by decide)
  have e4 : pushCmd c ≠ revListCmd c := by
    have hc : revListCmd c =
        "git rev-list " ++
          (c.upstream.remote_name ++ ("/" ++ (c.upstream.branch ++ "..HEAD --count"))) := by
      simp [revListCmd, String.append_assoc]
    rw [hp, hc]
    exact append_ne_append _ _ _ _ (by decide) (by decide)
  constructor
  · intro h0
    constructor
    · simp [mergeAndPush, h, h0]
    · simp [mergeAndPush, h, h0, e1, e2, e3, e4]
  · intro h0 h1
    constructor
    · simp [mergeAndPush, h, h0, h1]
    · simp [mergeAndPush, h, h0, h1]

/-- Witness for C3: zero commits ahead yields `UP_TO_DATE` with no push. -/
theorem merge_push_behavior_witness :
    (mergeAndPush envHappy cfgU).1 = .ok .UP_TO_DATE :=
  ((merge_push_behavior envHappy cfgU rfl).1 rfl).1

/-- C6: the precondition check evaluates platform support, clean working
tree, CLI presence, CLI authentication in that fixed order, short-circuits on
the first failing check (the event trace records exactly the checks
evaluated), raises the corresponding distinguished error, and on success
returns normally having run only read-only commands. -/
theorem check_preconditions_contract (e : Env) (c : MergeUpstreamConfig) :
    (["Darwin", "Linux"].contains e.platformSystem = false →
      checkPreconditions e c =
        (.error .unsupportedPlatform, [.check .platformSupported])) ∧
    (["Darwin", "Linux"].contains e.platformSystem = true → e.cleanWorktree = false →
      checkPreconditions e c =
        (.error .dirtyWorkingTree,
         [.check .platformSupported, .run diffIndexCmd, .check .cleanWorktree])) ∧
    (["Darwin", "Linux"].contains e.platformSystem = true → e.cleanWorktree = true →
      e.ghInstalled = false →
      checkPreconditions e c =
        (.error .missingTool,
         [.check .platformSupported, .run diffIndexCmd, .check .cleanWorktree,
          .check .ghInstalled])) ∧
    (["Darwin", "Linux"].contains e.platformSystem = true → e.cleanWorktree = true →
      e.ghInstalled = true → e.ghAuthOk = false →
      checkPreconditions e c =
        (.error .notAuthenticated,
         [.check .platformSupported, .run diffIndexCmd, .check .cleanWorktree,
          .check .ghInstalled, .run (ghAuthCmd c), .check .ghAuthenticated])) ∧
    (["Darwin", "Linux"].contains e.platformSystem = true → e.cleanWorktree = true →
      e.ghInstalled = true → e.ghAuthOk = true →
      checkPreconditions e c =
        (.ok (),
         [.check .platformSupported, .run diffIndexCmd, .check .cleanWorktree,
          .check .ghInstalled, .run (ghAuthCmd c), .check .ghAuthenticated]) ∧
      ((checkPreconditions e c).2.all (fun ev => !ev.isRepoMutation)) = true) := by
  have hro1 : cmdReadOnly diffIndexCmd = true := by decide
  have hro2 : cmdReadOnly (ghAuthCmd c) = true := by
    have hq : ghAuthCmd c = "gh auth status --hostname " ++ c.upstream.host := rfl
    rw [hq]
    exact cmdReadOnly_append "gh auth status" _ _ (by decide) (by decide)
  refine ⟨?_, ?_, ?_, ?_, ?_⟩
  · intro h1
    unfold checkPreconditions
    rw [h1]
    simp
  · intro h1 h2
    unfold checkPreconditions
    rw [h1, h2]
    simp
  · intro h1 h2 h3
    unfold checkPreconditions
    rw [h1, h2, h3]
    simp
  · intro h1 h2 h3 h4
    unfold checkPreconditions
    rw [h1, h2, h3, h4]
    simp
  · intro h1 h2 h3 h4
    constructor
    · unfold checkPreconditions
      rw [h1, h2, h3, h4]
      simp
    · unfold checkPreconditions
      rw [h1, h2, h3, h4]
      simp [Event.isRepoMutation, hro1, hro2]

/-- Witness for C6: at a concrete passing environment the check succeeds. -/
theorem check_preconditions_contract_witness :
    checkPreconditions envHappy cfgU =
      (.ok (),
       [.check .platformSupported, .run diffIndexCmd, .check .cleanWorktree,
        .check .ghInstalled, .run (ghAuthCmd cfgU), .check .ghAuthenticated]) :=
  (((check_preconditions_contract envHappy cfgU).2.2.2.2) (by decide) rfl rfl rfl).1

/-- C5: among existing pull requests filtered to the configured merge-branch
head and fork owner: zero matches create a new pull request with the
configured title, body, base branch, labels, assignee and reviewers (all part
of `ghPrCreateCmd`, with the body passed via the temp file); exactly one
match updates that pull request body (no creation); more than one match
aborts with an assertion failure and neither edits nor creates. -/
theorem create_pull_request_cases (e : Env) (c : MergeUpstreamConfig) (pr_body : String) :
    (matchingPullRequests e c = [] →
      createPullRequest e c pr_body =
        (.ok (),
         [.run (fetchCciCmd c), .run (pushPrCmd c), .writeTempFile e.tmpName pr_body,
          .run (ghPrListCmd c), .run (ghPrCreateCmd c e.tmpName)])) ∧
    (∀ r, matchingPullRequests e c = [r] →
      createPullRequest e c pr_body =
        (.ok (),
         [.run (fetchCciCmd c), .run (pushPrCmd c), .writeTempFile e.tmpName pr_body,
          .run (ghPrListCmd c), .run (ghPrEditCmd c r.url e.tmpName)])) ∧
    (2 ≤ (matchingPullRequests e c).length →
      createPullRequest e c pr_body =
        (.error .assertionFailure,
         [.run (fetchCciCmd c), .run (pushPrCmd c), .writeTempFile e.tmpName pr_body,
          .run (ghPrListCmd c)])) := by
  refine ⟨?_, ?_, ?_⟩
  · intro h0
    simp [createPullRequest, h0]
  · intro r h0
    simp [createPullRequest, h0]
  · intro h0
    rcases hm : matchingPullRequests e c with _ | ⟨r1, _ | ⟨r2, rest⟩⟩
    · rw [hm] at h0
      simp at h0
    · rw [hm] at h0
      simp at h0
    · simp [createPullRequest, hm]

/-- Witness for C5: with exactly one matching pull request, the publisher
edits it rather than creating a new one. -/
theorem create_pull_request_cases_witness :
    createPullRequest { envHappy with existingPRs := [samplePR] } cfgU "BODY" =
      (.ok (),
       [.run (fetchCciCmd cfgU), .run (pushPrCmd cfgU),
        .writeTempFile "/tmp/pr-body-1" "BODY", .run (ghPrListCmd cfgU),
        .run (ghPrEditCmd cfgU samplePR.url "/tmp/pr-body-1")]) :=
  (create_pull_request_cases { envHappy with existingPRs := [samplePR] } cfgU "BODY").2.1
    samplePR (by decide)



theorem fromDictCci_ok_keys (d : List (String × Yaml)) (c2 : ConanCenterIndexConfig)
    (h : fromDictCci d = .ok c2) : d.all (fun p => cciKeys.contains p.1) = true := by
  unfold fromDictCci at h
  repeat' split at h
  all_goals try simp_all
  all_goals assumption

theorem fromDictUpstream_ok_keys (d : List (String × Yaml)) (c2 : UpstreamConfig)
    (h : fromDictUpstream d = .ok c2) : d.all (fun p => upstreamKeys.contains p.1) = true := by
  unfold fromDictUpstream at h
  repeat' split at h
  all_goals try simp_all
  all_goals assumption

theorem fromDictPullRequest_ok_keys (user : String) (d : List (String × Yaml))
    (c2 : PullRequestConfig) (h : fromDictPullRequest user d = .ok c2) :
    d.all (fun p => pullRequestKeys.contains p.1) = true := by
  unfold fromDictPullRequest at h
  repeat' split at h
  all_goals try simp_all
  all_goals assumption

theorem parseSection_dict_ok {α : Type} (d : List (String × Yaml)) (key : String)
    (dflt : α) (parse : List (String × Yaml) → Except String α) (entries r : _)
    (hl : d.lookup key = some (.dict entries))
    (h : parseSection d key dflt parse = .ok r) : parse entries = .ok r := by
  unfold parseSection at h
  rw [hl] at h
  exact h

/-- C4: configuration loading is strict — an override document containing a
key the schema does not declare fails configuration loading with a
configuration error, before any precondition is checked or any mutation
occurs (the run trace is empty); the empty override document loads
successfully and yields the all-defaults configuration. -/
theorem strict_config_loading (d : List (String × Yaml)) (user : String) :
    (docHasUnknownKey d = true → ∃ msg, createFromDlproject d user = .error msg) ∧
    createFromDlproject [] user = .ok (defaultMergeUpstreamConfig user) ∧
    (∀ e : Env, (∃ msg, createFromDlproject e.dlproject e.user = .error msg) →
      (mergeUpstream e).2 = [] ∧
      ∃ msg, (mergeUpstream e).1 = .error (.configurationError msg)) := by
  refine ⟨?_, ?_, ?_⟩
  · intro hu
    rcases hc : parseSection d "cci" {} fromDictCci with m | cci
    · exact ⟨m, by unfold createFromDlproject; rw [hc]⟩
    rcases hup : parseSection d "upstream" {} fromDictUpstream with m | up
    · exact ⟨m, by unfold createFromDlproject; rw [hc, hup]⟩
    rcases hq : parseSection d "pull_request" { fork := user } (fromDictPullRequest user)
        with m | pr
    · exact ⟨m, by unfold createFromDlproject; rw [hc, hup, hq]⟩
    have hf2 : (match d.lookup "cci" with
        | some (.dict entries) => entries.any (fun p => !(cciKeys.contains p.1))
        | _ => false) = false := by
      rcases hl : d.lookup "cci" with _ | y
      · rfl
      cases y with
      | dict entries =>
        have hall := fromDictCci_ok_keys entries cci
          (parseSection_dict_ok d "cci" _ _ entries cci hl hc)
        cases han : entries.any (fun p => !(cciKeys.contains p.1)) with
        | false => exact han
        | true =>
          exfalso
          rcases List.any_eq_true.mp han with ⟨p, hp, hnp⟩
          have hcon := List.all_eq_true.mp hall p hp
          exact absurd (by simpa using hcon) (by simpa using hnp)
      | str s2 => rfl
      | strList l2 => rfl
      | nullVal => rfl
    have hf3 : (match d.lookup "upstream" with
        | some (.dict entries) => entries.any (fun p => !(upstreamKeys.contains p.1))
        | _ => false) = false := by
      rcases hl : d.lookup "upstream" with _ | y
      · rfl
      cases y with
      | dict entries =>
        have hall := fromDictUpstream_ok_keys entries up
          (parseSection_dict_ok d "upstream" _ _ entries up hl hup)
        cases han : entries.any (fun p => !(upstreamKeys.contains p.1)) with
        | false => exact han
        | true =>
          exfalso
          rcases List.any_eq_true.mp han with ⟨p, hp, hnp⟩
          have hcon := List.all_eq_true.mp hall p hp
          exact absurd (by simpa using hcon) (by simpa using hnp)
      | str s2 => rfl
      | strList l2 => rfl
      | nullVal => rfl
    have hf4 : (match d.lookup "pull_request" with
        | some (.dict entries) => entries.any (fun p => !(pullRequestKeys.contains p.1))
        | _ => false) = false := by
      rcases hl : d.lookup "pull_request" with _ | y
      · rfl
      cases y with
      | dict entries =>
        have hall := fromDictPullRequest_ok_keys user entries pr
          (parseSection_dict_ok d "pull_request" _ _ entries pr hl hq)
        cases han : entries.any (fun p => !(pullRequestKeys.contains p.1)) with
        | false => exact han
        | true =>
          exfalso
          rcases List.any_eq_true.mp han with ⟨p, hp, hnp⟩
          have hcon := List.all_eq_true.mp hall p hp
          exact absurd (by simpa using hcon) (by simpa using hnp)
      | str s2 => rfl
      | strList l2 => rfl
      | nullVal => rfl
    have htop : (d.all fun p => topKeys.contains p.1) = false := by
      unfold docHasUnknownKey at hu
      rw [hf2, hf3, hf4] at hu
      simp only [Bool.or_false] at hu
      cases hco : (d.all fun p => topKeys.contains p.1) with
      | false => rfl
      | true =>
        exfalso
        rcases List.any_eq_true.mp hu with ⟨p, hp, hnp⟩
        have hcon := List.all_eq_true.mp hco p hp
        exact absurd (by simpa using hcon) (by simpa using hnp)
    refine ⟨"unexpected keys in merge_upstream", ?_⟩
    unfold createFromDlproject
    rw [hc, hup, hq]
    show (if (d.all fun p => topKeys.contains p.1) = true then
            Except.ok ({ cci := cci, upstream := up, pull_request := pr } : MergeUpstreamConfig)
          else Except.error "unexpected keys in merge_upstream") =
        Except.error "unexpected keys in merge_upstream"
    rw [if_neg (by intro hcon; rw [htop] at hcon; exact Bool.false_ne_true hcon)]
  · rfl
  · intro e ⟨msg, hmsg⟩
    unfold mergeUpstream
    rw [hmsg]
    exact ⟨rfl, msg, rfl⟩

/-- Witness for C4: a document with the unknown key `bogus` fails loading,
and the empty document yields the defaults. -/
theorem strict_config_loading_witness :
    (∃ msg, createFromDlproject [("bogus", Yaml.str "x")] "builder" = .error msg) ∧
    createFromDlproject [] "builder" = .ok (defaultMergeUpstreamConfig "builder") :=
  ⟨(strict_config_loading [("bogus", Yaml.str "x")] "builder").1 rfl,
   (strict_config_loading [] "builder").2.1⟩

/-- C9: on entry the remote synchronizer ensures the configured remote
exists with the configured fork URL (set-url when it already exists with a
nonblank URL, add when missing) and then updates (fetches) it; on release
`git remote remove` is attempted on every exit path of the run, and a failure
of the removal itself does not change the run result (the removal runs with
`warn=True`, so its failure raises nothing). -/
theorem merge_remote_contract (e : Env) (c : MergeUpstreamConfig) :
    (∀ u, e.remotes.lookup c.upstream.remote_name = some u → pyStrip u ≠ "" →
      ∃ rs, mergeRemoteEnter e c =
        (.ok rs, [.run (getUrlCmd c), .run (setUrlCmd c), .run (updateRemoteCmd c)]) ∧
        rs.lookup c.upstream.remote_name = some c.upstream.url) ∧
    (e.remotes.lookup c.upstream.remote_name = none →
      ∃ rs, mergeRemoteEnter e c =
        (.ok rs, [.run (getUrlCmd c), .run (addRemoteCmd c), .run (updateRemoteCmd c)]) ∧
        rs.lookup c.upstream.remote_name = some c.upstream.url) ∧
    (∀ cfg, createFromDlproject e.dlproject e.user = .ok cfg →
      (checkPreconditions e cfg).1 = .ok () →
      Event.run (removeRemoteCmd cfg) ∈ (mergeUpstream e).2) ∧
    (∀ b1 b2 : Bool,
      (mergeUpstream { e with removeRemoteOk := b1 }).1 =
      (mergeUpstream { e with removeRemoteOk := b2 }).1) := by
  refine ⟨?_, ?_, ?_, ?_⟩
  · intro u hu hne
    refine ⟨setAssoc e.remotes c.upstream.remote_name c.upstream.url, ?_, ?_⟩
    · unfold mergeRemoteEnter
      rw [hu]
      simp [hne]
    · have hs : (e.remotes.lookup c.upstream.remote_name).isSome := by
        rw [hu]
        rfl
      exact lookup_setAssoc_self _ _ _ hs
  · intro hnone
    refine ⟨e.remotes ++ [(c.upstream.remote_name, c.upstream.url)], ?_, ?_⟩
    · unfold mergeRemoteEnter
      rw [hnone]
    · rw [lookup_append_of_none _ _ _ hnone]
      simp [List.lookup]
  · intro cfg hc hp
    unfold mergeUpstream
    rw [hc]
    rcases hP : checkPreconditions e cfg with ⟨r, evsP⟩
    rw [hP] at hp
    simp only at hp
    subst hp
    try simp only [hP]
    rcases hE : mergeRemoteEnter e cfg with ⟨r2, evsR⟩
    try simp only [hE]
    cases r2 with
    | error cmd => simp
    | ok rs =>
      rcases hW : workflowBody e cfg with ⟨res, evsB⟩
      try simp only [hW]
      simp
  · intro b1 b2
    rfl

/-- Witness for C9: a missing remote is added and points at the configured
fork URL. -/
theorem merge_remote_contract_witness :
    ∃ rs, mergeRemoteEnter envHappy cfgU =
      (.ok rs, [.run (getUrlCmd cfgU), .run (addRemoteCmd cfgU),
                .run (updateRemoteCmd cfgU)]) ∧
      rs.lookup cfgU.upstream.remote_name = some cfgU.upstream.url :=
  (merge_remote_contract envHappy cfgU).2.1 (by decide)



theorem checkPreconditions_ok_events (e : Env) (c : MergeUpstreamConfig)
    (h : (checkPreconditions e c).1 = .ok ()) :
    checkPreconditions e c =
      (.ok (), [.check .platformSupported, .run diffIndexCmd, .check .cleanWorktree,
       .check .ghInstalled, .run (ghAuthCmd c), .check .ghAuthenticated]) := by
  by_cases h1 : (["Darwin", "Linux"].contains e.platformSystem) = true
  · by_cases h2 : e.cleanWorktree = true
    · by_cases h3 : e.ghInstalled = true
      · by_cases h4 : e.ghAuthOk = true
        · unfold checkPreconditions
          rw [h1, h2, h3, h4]
          simp
        · exfalso
          have h4f : e.ghAuthOk = false := by
            cases hv : e.ghAuthOk
            · rfl
            · exact absurd hv h4
          unfold checkPreconditions at h
          rw [h1, h2, h3, h4f] at h
          simp at h
      · exfalso
        have h3f : e.ghInstalled = false := by
          cases hv : e.ghInstalled
          · rfl
          · exact absurd hv h3
        unfold checkPreconditions at h
        rw [h1, h2, h3f] at h
        simp at h
    · exfalso
      have h2f : e.cleanWorktree = false := by
        cases hv : e.cleanWorktree
        · rfl
        · exact absurd hv h2
      unfold checkPreconditions at h
      rw [h1, h2f] at h
      simp at h
  · exfalso
    have h1f : (["Darwin", "Linux"].contains e.platformSystem) = false := by
      cases hv : (["Darwin", "Linux"].contains e.platformSystem)
      · rfl
      · exact absurd hv h1
    unfold checkPreconditions at h
    rw [h1f] at h
    simp at h

/-- C7: in every run that passes configuration loading and the precondition
check, the status-marker file is removed before any repository mutation (the
trace splits at the removal with only non-mutating events before it), it is
written at most once, and at the end of the run it exists iff the run reached
a terminal outcome, holding exactly the name of the terminal `MergeStatus`
(one of the three variants); on any error exit after the removal the file is
absent. -/
theorem status_marker_contract (e : Env) (cfg : MergeUpstreamConfig) (init : Option String)
    (hc : createFromDlproject e.dlproject e.user = .ok cfg)
    (hp : (checkPreconditions e cfg).1 = .ok ()) :
    (∃ pre post, (mergeUpstream e).2 = pre ++ Event.removeStatusFile :: post ∧
       pre.all (fun ev => !ev.isRepoMutation) = true) ∧
    writeCount (mergeUpstream e).2 ≤ 1 ∧
    (∀ st, (mergeUpstream e).1 = .ok st →
       statusFileAfter init (mergeUpstream e).2 = some st.name ∧
       st.name ∈ (["UP_TO_DATE", "MERGED", "PULL_REQUEST"] : List String)) ∧
    (∀ err, (mergeUpstream e).1 = .error err →
       statusFileAfter init (mergeUpstream e).2 = none) := by
  have hPfull := checkPreconditions_ok_events e cfg hp
  have hro1 : cmdReadOnly diffIndexCmd = true := by decide
  have hro2 : cmdReadOnly (ghAuthCmd cfg) = true := by
    have hq : ghAuthCmd cfg = "gh auth status --hostname " ++ cfg.upstream.host := rfl
    rw [hq]
    exact cmdReadOnly_append "gh auth status" _ _ (by decide) (by decide)
  have hRest := statusFileAfter_of_plain (restoreEvents e) (restoreEvents_plain e)
  have hzRest := writeCount_of_plain (restoreEvents e) (restoreEvents_plain e)
  rcases hE : mergeRemoteEnter e cfg with ⟨r2, evsR⟩
  have hplainR : evsR.all plainEvent = true := by
    have hq := mergeRemoteEnter_events_plain e cfg
    rwa [hE] at hq
  have hR := statusFileAfter_of_plain evsR hplainR
  have hzR := writeCount_of_plain evsR hplainR
  cases r2 with
  | error cmd =>
    have hMU : mergeUpstream e =
        (.error (.unexpectedExit cmd),
         [Event.check .platformSupported, .run diffIndexCmd, .check .cleanWorktree,
          .check .ghInstalled, .run (ghAuthCmd cfg), .check .ghAuthenticated] ++
         [Event.removeStatusFile, Event.run revParseBranchCmd, Event.run revParseHeadCmd] ++
         evsR ++ [Event.run (removeRemoteCmd cfg)] ++ restoreEvents e) := by
      simp only [mergeUpstream, hc, hPfull, hE]
    refine ⟨?_, ?_, ?_, ?_⟩
    · refine ⟨[Event.check .platformSupported, .run diffIndexCmd, .check .cleanWorktree,
               .check .ghInstalled, .run (ghAuthCmd cfg), .check .ghAuthenticated],
              [Event.run revParseBranchCmd, Event.run revParseHeadCmd] ++ evsR ++
              [Event.run (removeRemoteCmd cfg)] ++ restoreEvents e, ?_, ?_⟩
      · rw [hMU]
        simp [List.append_assoc]
      · simp [Event.isRepoMutation, hro1, hro2]
    · rw [hMU]
      simp [writeCount_append, writeCount_cons, writeCount_nil, hzR, hzRest, isStatusWrite]
    · intro st hst
      rw [hMU] at hst
      simp at hst
    · intro err herr
      rw [hMU]
      simp [statusFileAfter_append, statusFileAfter_cons, statusFileAfter_nil,
            statusFileStep, hR, hRest]
  | ok rs =>
    rcases hW : workflowBody e cfg with ⟨res, evsB⟩
    have hMU : mergeUpstream e =
        (res,
         [Event.check .platformSupported, .run diffIndexCmd, .check .cleanWorktree,
          .check .ghInstalled, .run (ghAuthCmd cfg), .check .ghAuthenticated] ++
         [Event.removeStatusFile, Event.run revParseBranchCmd, Event.run revParseHeadCmd] ++
         evsR ++ evsB ++ [Event.run (removeRemoteCmd cfg)] ++ restoreEvents e) := by
      simp only [mergeUpstream, hc, hPfull, hE, hW]
    have hWC := workflowBody_writeCount e cfg
    rw [hW] at hWC
    simp at hWC
    refine ⟨?_, ?_, ?_, ?_⟩
    · refine ⟨[Event.check .platformSupported, .run diffIndexCmd, .check .cleanWorktree,
               .check .ghInstalled, .run (ghAuthCmd cfg), .check .ghAuthenticated],
              [Event.run revParseBranchCmd, Event.run revParseHeadCmd] ++ evsR ++ evsB ++
              [Event.run (removeRemoteCmd cfg)] ++ restoreEvents e, ?_, ?_⟩
      · rw [hMU]
        simp [List.append_assoc]
      · simp [Event.isRepoMutation, hro1, hro2]
    · rw [hMU]
      simp [writeCount_append, writeCount_cons, writeCount_nil, hzR, hzRest, isStatusWrite]
      omega
    · intro st hst
      rw [hMU] at hst
      simp at hst
      have hok : (workflowBody e cfg).1 = .ok st := by
        rw [hW]
        simp [hst]
      have hS := workflowBody_status_ok e cfg none st hok
      rw [hW] at hS
      simp at hS
      constructor
      · rw [hMU]
        simp [statusFileAfter_append, statusFileAfter_cons, statusFileAfter_nil,
              statusFileStep, hR, hRest, hS]
      · cases st <;> simp [MergeStatus.name]
    · intro err herr
      rw [hMU] at herr
      simp at herr
      have herr2 : (workflowBody e cfg).1 = .error err := by
        rw [hW]
        simp [herr]
      have hS := workflowBody_status_error e cfg none err herr2
      rw [hW] at hS
      simp at hS
      rw [hMU]
      simp [statusFileAfter_append, statusFileAfter_cons, statusFileAfter_nil,
            statusFileStep, hR, hRest, hS]

/-- Witness for C7: a clean up-to-date run ends with the marker holding
`UP_TO_DATE`. -/
theorem status_marker_contract_witness :
    statusFileAfter none (mergeUpstream envHappy).2 = some "UP_TO_DATE" := by
  have h := status_marker_contract envHappy (defaultMergeUpstreamConfig "builder") none
    (by rfl) (by rfl)
  have hok : (mergeUpstream envHappy).1 = .ok .UP_TO_DATE := by rfl
  exact (h.2.2.1 .UP_TO_DATE hok).1



theorem mergeAndPush_conflict (e : Env) (c : MergeUpstreamConfig)
    (hM : e.mergeOk = false) (hLs : pyStrip e.lsFilesOut ≠ "") :
    mergeAndPush e c =
      (.error .conflicts,
       [Event.run (checkoutDetachCmd c), Event.run (fetchCciCmd c), Event.run (mergeCmd c),
        Event.run lsFilesCmd]) := by
  unfold mergeAndPush
  rw [hM]
  simp [hLs]

theorem formPrBody_ok (e : Env) (c : MergeUpstreamConfig)
    (h1 : e.conflictFilesOk = true) (h2 : e.commitsUpstreamOk = true)
    (h3 : e.commitsLocalOk = true) :
    formPrBody e c =
      (.ok (formPrBodyText c e.conflictFilesOut e.commitsUpstreamOut e.commitsLocalOut),
       [.run diffFilterCmd, .run logUpstreamCmd, .run logLocalCmd]) := by
  unfold formPrBody
  rw [h1, h2, h3]
  simp

theorem createPullRequest_writeTemp_mem (e : Env) (c : MergeUpstreamConfig) (body : String) :
    Event.writeTempFile e.tmpName body ∈ (createPullRequest e c body).2 := by
  unfold createPullRequest
  rcases matchingPullRequests e c with _ | ⟨r, _ | _⟩ <;> simp

/-- C10: whenever the merge-and-push step raises `MergeHadConflicts` (the
merge command failed and the index holds unmerged paths), `git merge --abort`
runs exactly once over the whole run, positioned immediately after the
body-gathering commands and before everything that follows; and when the
body construction itself raises, the abort still runs and the construction
error propagates as the run result. -/
theorem conflict_abort_once (e : Env) (cfg : MergeUpstreamConfig)
    (hc : createFromDlproject e.dlproject e.user = .ok cfg)
    (hp : (checkPreconditions e cfg).1 = .ok ())
    (hEok : ∃ rs, (mergeRemoteEnter e cfg).1 = .ok rs)
    (hM : e.mergeOk = false) (hLs : pyStrip e.lsFilesOut ≠ "") :
    abortCount (mergeUpstream e).2 = 1 ∧
    (∃ post, (mergeUpstream e).2 =
      ([Event.check .platformSupported, .run diffIndexCmd, .check .cleanWorktree,
        .check .ghInstalled, .run (ghAuthCmd cfg), .check .ghAuthenticated] ++
       [Event.removeStatusFile, Event.run revParseBranchCmd, Event.run revParseHeadCmd] ++
       (mergeRemoteEnter e cfg).2 ++
       [Event.run (checkoutDetachCmd cfg), Event.run (fetchCciCmd cfg),
        Event.run (mergeCmd cfg), Event.run lsFilesCmd] ++
       (formPrBody e cfg).2) ++ Event.mergeAbort :: post ∧
      abortCount post = 0) ∧
    (∀ cmd, (formPrBody e cfg).1 = .error cmd →
      (mergeUpstream e).1 = .error (.unexpectedExit cmd)) := by
  obtain ⟨rs, hrs⟩ := hEok
  rcases hE : mergeRemoteEnter e cfg with ⟨r2, evsR⟩
  rw [hE] at hrs
  simp at hrs
  subst hrs
  have hplainR : evsR.all plainEvent = true := by
    have hq := mergeRemoteEnter_events_plain e cfg
    rwa [hE] at hq
  have haR := abortCount_of_plain evsR hplainR
  have haRest := abortCount_of_plain (restoreEvents e) (restoreEvents_plain e)
  have hPfull := checkPreconditions_ok_events e cfg hp
  have hMP := mergeAndPush_conflict e cfg hM hLs
  rcases hfb : formPrBody e cfg with ⟨bres, evsB⟩
  have hplainB : evsB.all plainEvent = true := by
    have hq := formPrBody_events_plain e cfg
    rwa [hfb] at hq
  have haB := abortCount_of_plain evsB hplainB
  cases bres with
  | error cmd2 =>
    have hWB : workflowBody e cfg =
        (.error (.unexpectedExit cmd2),
         [Event.run (checkoutDetachCmd cfg), Event.run (fetchCciCmd cfg),
          Event.run (mergeCmd cfg), Event.run lsFilesCmd] ++ evsB ++ [Event.mergeAbort]) := by
      simp only [workflowBody, hMP, hfb]
    have hMU : mergeUpstream e =
        (.error (.unexpectedExit cmd2),
         [Event.check .platformSupported, .run diffIndexCmd, .check .cleanWorktree,
          .check .ghInstalled, .run (ghAuthCmd cfg), .check .ghAuthenticated] ++
         [Event.removeStatusFile, Event.run revParseBranchCmd, Event.run revParseHeadCmd] ++
         evsR ++
         ([Event.run (checkoutDetachCmd cfg), Event.run (fetchCciCmd cfg),
           Event.run (mergeCmd cfg), Event.run lsFilesCmd] ++ evsB ++ [Event.mergeAbort]) ++
         [Event.run (removeRemoteCmd cfg)] ++ restoreEvents e) := by
      simp only [mergeUpstream, hc, hPfull, hE, hWB]
    refine ⟨?_, ?_, ?_⟩
    · rw [hMU]
      simp [abortCount_append, abortCount_cons, abortCount_nil, haR, haB, haRest, isAbort]
    · refine ⟨[Event.run (removeRemoteCmd cfg)] ++ restoreEvents e, ?_, ?_⟩
      · rw [hMU]
        simp [List.append_assoc]
      · simp [abortCount_append, abortCount_cons, abortCount_nil, haRest, isAbort]
    · intro cmd hcmd
      simp at hcmd
      subst hcmd
      rw [hMU]
  | ok body =>
    rcases hcp : createPullRequest e cfg body with ⟨cres, evsC⟩
    have hplainC : evsC.all plainEvent = true := by
      have hq := createPullRequest_events_plain e cfg body
      rwa [hcp] at hq
    have haC := abortCount_of_plain evsC hplainC
    cases cres with
    | error err =>
      have hWB : workflowBody e cfg =
          (.error err,
           [Event.run (checkoutDetachCmd cfg), Event.run (fetchCciCmd cfg),
            Event.run (mergeCmd cfg), Event.run lsFilesCmd] ++ evsB ++ [Event.mergeAbort] ++
           evsC) := by
        simp only [workflowBody, hMP, hfb, hcp]
      have hMU : mergeUpstream e =
          (.error err,
           [Event.check .platformSupported, .run diffIndexCmd, .check .cleanWorktree,
            .check .ghInstalled, .run (ghAuthCmd cfg), .check .ghAuthenticated] ++
           [Event.removeStatusFile, Event.run revParseBranchCmd, Event.run revParseHeadCmd] ++
           evsR ++
           ([Event.run (checkoutDetachCmd cfg), Event.run (fetchCciCmd cfg),
             Event.run (mergeCmd cfg), Event.run lsFilesCmd] ++ evsB ++ [Event.mergeAbort] ++
            evsC) ++
           [Event.run (removeRemoteCmd cfg)] ++ restoreEvents e) := by
        simp only [mergeUpstream, hc, hPfull, hE, hWB]
      refine ⟨?_, ?_, ?_⟩
      · rw [hMU]
        simp [abortCount_append, abortCount_cons, abortCount_nil, haR, haB, haC, haRest,
              isAbort]
      · refine ⟨evsC ++ [Event.run (removeRemoteCmd cfg)] ++ restoreEvents e, ?_, ?_⟩
        · rw [hMU]
          simp [List.append_assoc]
        · simp [abortCount_append, abortCount_cons, abortCount_nil, haC, haRest, isAbort]
      · intro cmd hcmd
        simp at hcmd
    | ok u =>
      have hWB : workflowBody e cfg =
          (.ok .PULL_REQUEST,
           [Event.run (checkoutDetachCmd cfg), Event.run (fetchCciCmd cfg),
            Event.run (mergeCmd cfg), Event.run lsFilesCmd] ++ evsB ++ [Event.mergeAbort] ++
           evsC ++ [Event.writeStatusFile MergeStatus.PULL_REQUEST.name]) := by
        simp only [workflowBody, hMP, hfb, hcp]
      have hMU : mergeUpstream e =
          (.ok .PULL_REQUEST,
           [Event.check .platformSupported, .run diffIndexCmd, .check .cleanWorktree,
            .check .ghInstalled, .run (ghAuthCmd cfg), .check .ghAuthenticated] ++
           [Event.removeStatusFile, Event.run revParseBranchCmd, Event.run revParseHeadCmd] ++
           evsR ++
           ([Event.run (checkoutDetachCmd cfg), Event.run (fetchCciCmd cfg),
             Event.run (mergeCmd cfg), Event.run lsFilesCmd] ++ evsB ++ [Event.mergeAbort] ++
            evsC ++ [Event.writeStatusFile MergeStatus.PULL_REQUEST.name]) ++
           [Event.run (removeRemoteCmd cfg)] ++ restoreEvents e) := by
        simp only [mergeUpstream, hc, hPfull, hE, hWB]
      refine ⟨?_, ?_, ?_⟩
      · rw [hMU]
        simp [abortCount_append, abortCount_cons, abortCount_nil, haR, haB, haC, haRest,
              isAbort]
      · refine ⟨evsC ++ [Event.writeStatusFile MergeStatus.PULL_REQUEST.name] ++
          [Event.run (removeRemoteCmd cfg)] ++ restoreEvents e, ?_, ?_⟩
        · rw [hMU]
          simp [List.append_assoc]
        · simp [abortCount_append, abortCount_cons, abortCount_nil, haC, haRest, isAbort]
      · intro cmd hcmd
        simp at hcmd

/-- Witness for C10 at a concrete conflicted environment. -/
theorem conflict_abort_once_witness :
    abortCount (mergeUpstream
      { envHappy with mergeOk := false, lsFilesOut := "100644 4a5e 1\tfileA" }).2 = 1 :=
  (conflict_abort_once
    { envHappy with mergeOk := false, lsFilesOut := "100644 4a5e 1\tfileA" }
    (defaultMergeUpstreamConfig "builder") (by rfl) (by rfl) ⟨_, by rfl⟩ (by rfl)
    (by decide)).1



set_option maxRecDepth 80000 in
/-- C8 (amended): on the conflict path the pull-request body is computed
from the in-progress merge state strictly before the merge is aborted — the
three gathering commands immediately precede the `git merge --abort` event —
and the computed body, which is handed to the pull-request publisher via the
temp file, is the fixed Markdown template whose three conflict sections are
titled `### List of conflict files`, `### Commits for conflict files on
\`conan-io\`` and `### Commits for conflict files, local` (not "Conflict
files" / "Commits on upstream" / "Commits local" as the claim states),
filled respectively with the list of unmerged paths and the two one-line
diverging logs. -/
theorem pr_body_sections (e : Env) (cfg : MergeUpstreamConfig)
    (hc : createFromDlproject e.dlproject e.user = .ok cfg)
    (hp : (checkPreconditions e cfg).1 = .ok ())
    (hEok : ∃ rs, (mergeRemoteEnter e cfg).1 = .ok rs)
    (hM : e.mergeOk = false) (hLs : pyStrip e.lsFilesOut ≠ "")
    (h1 : e.conflictFilesOk = true) (h2 : e.commitsUpstreamOk = true)
    (h3 : e.commitsLocalOk = true) :
    formPrBody e cfg =
      (.ok (formPrBodyText cfg e.conflictFilesOut e.commitsUpstreamOut e.commitsLocalOut),
       [.run diffFilterCmd, .run logUpstreamCmd, .run logLocalCmd]) ∧
    (∃ pre post, (mergeUpstream e).2 =
       pre ++ [Event.run diffFilterCmd, Event.run logUpstreamCmd, Event.run logLocalCmd,
               Event.mergeAbort] ++ post) ∧
    Event.writeTempFile e.tmpName
        (formPrBodyText cfg e.conflictFilesOut e.commitsUpstreamOut e.commitsLocalOut) ∈
      (mergeUpstream e).2 ∧
    formPrBodyText cfg e.conflictFilesOut e.commitsUpstreamOut e.commitsLocalOut =
      "\nMerge changes from conan-io/conan-center-index into " ++ cfg.upstream.branch ++
      ".\n\nThis PR was automatically created due to merge conflicts in the automated merge.\n\n" ++
      "## Conflict information" ++ "\n\n" ++
      "### List of conflict files" ++ "\n\n" ++ e.conflictFilesOut ++ "\n\n" ++
      "### Commits for conflict files on `conan-io`" ++ "\n\n" ++ e.commitsUpstreamOut ++
      "\n\n" ++
      "### Commits for conflict files, local" ++ "\n\n" ++ e.commitsLocalOut ++ "\n" ∧
    SubstrOf "### List of conflict files"
      (formPrBodyText cfg e.conflictFilesOut e.commitsUpstreamOut e.commitsLocalOut) ∧
    SubstrOf "### Commits for conflict files on `conan-io`"
      (formPrBodyText cfg e.conflictFilesOut e.commitsUpstreamOut e.commitsLocalOut) ∧
    SubstrOf "### Commits for conflict files, local"
      (formPrBodyText cfg e.conflictFilesOut e.commitsUpstreamOut e.commitsLocalOut) := by
  obtain ⟨rs, hrs⟩ := hEok
  rcases hE : mergeRemoteEnter e cfg with ⟨r2, evsR⟩
  rw [hE] at hrs
  simp at hrs
  subst hrs
  have hPfull := checkPreconditions_ok_events e cfg hp
  have hMP := mergeAndPush_conflict e cfg hM hLs
  have hFB := formPrBody_ok e cfg h1 h2 h3
  have sub1 : SubstrOf "### List of conflict files"
      (formPrBodyText cfg e.conflictFilesOut e.commitsUpstreamOut e.commitsLocalOut) := by
    refine ⟨"\nMerge changes from conan-io/conan-center-index into " ++ cfg.upstream.branch ++
      ".\n\nThis PR was automatically created due to merge conflicts in the automated merge.\n\n" ++
      "## Conflict information" ++ "\n\n",
      "\n\n" ++ e.conflictFilesOut ++ "\n\n" ++
      "### Commits for conflict files on `conan-io`" ++ "\n\n" ++ e.commitsUpstreamOut ++
      "\n\n" ++
      "### Commits for conflict files, local" ++ "\n\n" ++ e.commitsLocalOut ++ "\n", ?_⟩
    apply String.ext
    simp [formPrBodyText, String.data_append, List.append_assoc]
  have sub2 : SubstrOf "### Commits for conflict files on `conan-io`"
      (formPrBodyText cfg e.conflictFilesOut e.commitsUpstreamOut e.commitsLocalOut) := by
    refine ⟨"\nMerge changes from conan-io/conan-center-index into " ++ cfg.upstream.branch ++
      ".\n\nThis PR was automatically created due to merge conflicts in the automated merge.\n\n" ++
      "## Conflict information" ++ "\n\n" ++
      "### List of conflict files" ++ "\n\n" ++ e.conflictFilesOut ++ "\n\n",
      "\n\n" ++ e.commitsUpstreamOut ++ "\n\n" ++
      "### Commits for conflict files, local" ++ "\n\n" ++ e.commitsLocalOut ++ "\n", ?_⟩
    apply String.ext
    simp [formPrBodyText, String.data_append, List.append_assoc]
  have sub3 : SubstrOf "### Commits for conflict files, local"
      (formPrBodyText cfg e.conflictFilesOut e.commitsUpstreamOut e.commitsLocalOut) := by
    refine ⟨"\nMerge changes from conan-io/conan-center-index into " ++ cfg.upstream.branch ++
      ".\n\nThis PR was automatically created due to merge conflicts in the automated merge.\n\n" ++
      "## Conflict information" ++ "\n\n" ++
      "### List of conflict files" ++ "\n\n" ++ e.conflictFilesOut ++ "\n\n" ++
      "### Commits for conflict files on `conan-io`" ++ "\n\n" ++ e.commitsUpstreamOut ++
      "\n\n",
      "\n\n" ++ e.commitsLocalOut ++ "\n", ?_⟩
    apply String.ext
    simp [formPrBodyText, String.data_append, List.append_assoc]
  rcases hcp : createPullRequest e cfg
      (formPrBodyText cfg e.conflictFilesOut e.commitsUpstreamOut e.commitsLocalOut)
      with ⟨cres, evsC⟩
  have hmem : Event.writeTempFile e.tmpName
      (formPrBodyText cfg e.conflictFilesOut e.commitsUpstreamOut e.commitsLocalOut) ∈ evsC := by
    have hq := createPullRequest_writeTemp_mem e cfg
      (formPrBodyText cfg e.conflictFilesOut e.commitsUpstreamOut e.commitsLocalOut)
    rw [hcp] at hq
    simpa using hq
  cases cres with
  | error err =>
    have hWB : workflowBody e cfg =
        (.error err,
         [Event.run (checkoutDetachCmd cfg), Event.run (fetchCciCmd cfg),
          Event.run (mergeCmd cfg), Event.run lsFilesCmd] ++
         [Event.run diffFilterCmd, Event.run logUpstreamCmd, Event.run logLocalCmd] ++
         [Event.mergeAbort] ++ evsC) := by
      simp only [workflowBody, hMP, hFB, hcp]
    have hMU : mergeUpstream e =
        (.error err,
         [Event.check .platformSupported, .run diffIndexCmd, .check .cleanWorktree,
          .check .ghInstalled, .run (ghAuthCmd cfg), .check .ghAuthenticated] ++
         [Event.removeStatusFile, Event.run revParseBranchCmd, Event.run revParseHeadCmd] ++
         evsR ++
         ([Event.run (checkoutDetachCmd cfg), Event.run (fetchCciCmd cfg),
           Event.run (mergeCmd cfg), Event.run lsFilesCmd] ++
          [Event.run diffFilterCmd, Event.run logUpstreamCmd, Event.run logLocalCmd] ++
          [Event.mergeAbort] ++ evsC) ++
         [Event.run (removeRemoteCmd cfg)] ++ restoreEvents e) := by
      simp only [mergeUpstream, hc, hPfull, hE, hWB]
    refine ⟨hFB, ?_, ?_, rfl, sub1, sub2, sub3⟩
    · refine ⟨[Event.check .platformSupported, .run diffIndexCmd, .check .cleanWorktree,
        .check .ghInstalled, .run (ghAuthCmd cfg), .check .ghAuthenticated] ++
        [Event.removeStatusFile, Event.run revParseBranchCmd, Event.run revParseHeadCmd] ++
        evsR ++
        [Event.run (checkoutDetachCmd cfg), Event.run (fetchCciCmd cfg),
         Event.run (mergeCmd cfg), Event.run lsFilesCmd],
        evsC ++ [Event.run (removeRemoteCmd cfg)] ++ restoreEvents e, ?_⟩
      rw [hMU]
      simp [List.append_assoc]
    · rw [hMU]
      simp [hmem]
  | ok u =>
    have hWB : workflowBody e cfg =
        (.ok .PULL_REQUEST,
         [Event.run (checkoutDetachCmd cfg), Event.run (fetchCciCmd cfg),
          Event.run (mergeCmd cfg), Event.run lsFilesCmd] ++
         [Event.run diffFilterCmd, Event.run logUpstreamCmd, Event.run logLocalCmd] ++
         [Event.mergeAbort] ++ evsC ++
         [Event.writeStatusFile MergeStatus.PULL_REQUEST.name]) := by
      simp only [workflowBody, hMP, hFB, hcp]
    have hMU : mergeUpstream e =
        (.ok .PULL_REQUEST,
         [Event.check .platformSupported, .run diffIndexCmd, .check .cleanWorktree,
          .check .ghInstalled, .run (ghAuthCmd cfg), .check .ghAuthenticated] ++
         [Event.removeStatusFile, Event.run revParseBranchCmd, Event.run revParseHeadCmd] ++
         evsR ++
         ([Event.run (checkoutDetachCmd cfg), Event.run (fetchCciCmd cfg),
           Event.run (mergeCmd cfg), Event.run lsFilesCmd] ++
          [Event.run diffFilterCmd, Event.run logUpstreamCmd, Event.run logLocalCmd] ++
          [Event.mergeAbort] ++ evsC ++
          [Event.writeStatusFile MergeStatus.PULL_REQUEST.name]) ++
         [Event.run (removeRemoteCmd cfg)] ++ restoreEvents e) := by
      simp only [mergeUpstream, hc, hPfull, hE, hWB]
    refine ⟨hFB, ?_, ?_, rfl, sub1, sub2, sub3⟩
    · refine ⟨[Event.check .platformSupported, .run diffIndexCmd, .check .cleanWorktree,
        .check .ghInstalled, .run (ghAuthCmd cfg), .check .ghAuthenticated] ++
        [Event.removeStatusFile, Event.run revParseBranchCmd, Event.run revParseHeadCmd] ++
        evsR ++
        [Event.run (checkoutDetachCmd cfg), Event.run (fetchCciCmd cfg),
         Event.run (mergeCmd cfg), Event.run lsFilesCmd],
        evsC ++ [Event.writeStatusFile MergeStatus.PULL_REQUEST.name] ++
        [Event.run (removeRemoteCmd cfg)] ++ restoreEvents e, ?_⟩
      rw [hMU]
      simp [List.append_assoc]
    · rw [hMU]
      simp [hmem]

/-- Witness for C8 (amended) at a concrete conflicted environment. -/
theorem pr_body_sections_witness :
    (formPrBody { envHappy with mergeOk := false, lsFilesOut := "100644 4a5e 1\tfileA" }
        (defaultMergeUpstreamConfig "builder")).1 =
      .ok (formPrBodyText (defaultMergeUpstreamConfig "builder") "recipes/zlib/config.yml"
        "1a2b3c - fix (2 days ago) <u>" "4d5e6f - local fix (3 days ago) <v>") := by
  have h := pr_body_sections
    { envHappy with mergeOk := false, lsFilesOut := "100644 4a5e 1\tfileA" }
    (defaultMergeUpstreamConfig "builder") (by rfl) (by rfl) ⟨_, by rfl⟩ (by rfl)
    (by decide) (by rfl) (by rfl) (by rfl)
  rw [h.1]
  rfl

set_option maxRecDepth 80000 in
/-- C8 counterexample: the claim says the body template contains sections
titled "Conflict files", "Commits on upstream" and "Commits local"; at a
concrete configuration and concrete command outputs none of these three
strings occurs anywhere in the computed body. -/
theorem pr_body_sections_counterexample :
    ¬ SubstrOf "Conflict files" (formPrBodyText cfgU "fileA" "upA" "locA") ∧
    ¬ SubstrOf "Commits on upstream" (formPrBodyText cfgU "fileA" "upA" "locA") ∧
    ¬ SubstrOf "Commits local" (formPrBodyText cfgU "fileA" "upA" "locA") := by
  refine ⟨?_, ?_, ?_⟩ <;> rw [substrOf_iff_dataInfix] <;> decide


end Merging
